import Mathlib

/-!
Verification development for the pdx-orm repository (package `src/pdxorm`).

This file gives a shallow embedding, in Lean, of the parts of the ORM that the
verified properties talk about:

* the metadata registry (`ModelMeta.py`: `MetaInformation`, `ModelMeta.__new__`),
* the entity data model (`BaseData.py`: `__init__`, `__eq__`, `__getattribute__`,
  `from_db_dict`, `get_db_value`, `pk`, `get_values_for_columns`),
* the query builder (`QueryBuilder.py`),
* the SQL generators (`QueryGenerator.py`),
* the transaction-scope connection manager (`Connection.py`),
* the table access layer (`AbstractTable.py`: `get_one`,
  `get_one_or_none_with_query`, `_parse_db_result_to_dataclass`, `_update`,
  `_get_different_columns`, `_get_fk_as_tuple`, `_update_result_dict`).

Modelling conventions, used throughout:

* Python runtime values are modelled by the inductive type `PyVal`.  Python
  `None` is `PyVal.vnone`; a `LazyField` instance is `PyVal.vlazy`; a `BaseData`
  instance is `PyVal.vent` carrying its class metadata and its `__dict__` of
  declared fields.  Python `==` on these values is modelled by structural
  equality.  This is exact for `None`, numbers, strings, booleans, tuples,
  lists and dicts.  For `LazyField` objects (which define no `__eq__` and are
  compared by identity in Python) the theorems below never rely on two
  structurally equal `vlazy` values comparing equal; hypotheses restrict to
  value shapes where structural equality and Python equality coincide.
* Exceptions are modelled with `Except PyErr`.  `PyErr.fuelExhausted` is not a
  Python error: it is the artefact of bounding the unbounded recursions of the
  source (nested entities, cross-table eager resolution) by an explicit fuel
  parameter.  Every theorem either quantifies over the fuel or supplies enough.
* Functions keep the Python names where Lean allows it (camel-cased where the
  Python name is not a valid Lean identifier).
* Dictionaries are modelled as association lists looked up by first occurrence;
  the key sets produced by the source are pairwise distinct wherever theorems
  rely on lookups.  Python `set` iteration order is implementation defined; the
  model determinises it to first-insertion order (only the membership of the
  resulting collections matters to the properties proved here).
-/

/-! ## Python values -/

/-- A literal default value as held by `DBColumn.default_value`
(`DBColumn.py` line 22: `default_value: Any = None`; in this embedding default
values are restricted to scalars, which is what the data model stores). -/
inductive Lit where
  | lnone
  | lint (n : Int)
  | lstr (s : String)
  | lbool (b : Bool)
deriving DecidableEq, Repr

/-- One database column descriptor (`DBColumn.py` lines 21-31).  `reference`
holds the referenced table as a table handle (a `Nat` index into the world's
table registry) instead of a Python class object. -/
structure DBColumn where
  field_name : String
  db_field_name : String
  nullable : Bool
  reference : Option Nat
  primary_key : Bool
  default_value : Lit
  auto_generated : Bool
  referenced_column : Option String
deriving DecidableEq, Repr

/-- A declared entity field maps to one `DBColumn` or to a list of them
(`ModelMeta.py` lines 30-53: the scalar branch and the list branch). -/
inductive FieldSpec where
  | single (c : DBColumn)
  | compound (cs : List DBColumn)
deriving DecidableEq, Repr

/-- The metadata record derived once per entity type (`ModelMeta.py` lines
6-13).  The `@dataclass MetaInformation` declares exactly these five
attributes: `fields`, `db_columns`, `primary_keys`, `foreign_keys`,
`auto_generated_fields`.  (It declares no `one_to_many_fields` attribute; see
`metaGetAttr` below.) -/
structure MetaInformation where
  fields : List (String × FieldSpec)
  db_columns : List (String × DBColumn)
  primary_keys : List DBColumn
  foreign_keys : List (String × List DBColumn)
  auto_generated_fields : List String
deriving DecidableEq, Repr

mutual
/-- A Python runtime value of the data model.  `vent m vals` is a `BaseData`
instance of the class whose metadata is `m`, with `vals` its `__dict__`
restricted to the declared fields (in declaration order).  `vlazy v r` is a
`LazyField` with `db_value = v` and `reference` the table handle `r`. -/
inductive PyVal where
  | vnone
  | vint (n : Int)
  | vstr (s : String)
  | vbool (b : Bool)
  | vtup (xs : PyList)
  | vlist (xs : PyList)
  | vlazy (dbValue : PyVal) (ref : Nat)
  | vent (m : MetaInformation) (vals : PyKVs)
  | vdict (kvs : PyKVs)
deriving DecidableEq
/-- A list of Python values (spine of `PyVal.vtup` / `PyVal.vlist`). -/
inductive PyList where
  | nil
  | cons (hd : PyVal) (tl : PyList)
deriving DecidableEq
/-- A string-keyed association of Python values (spine of `PyVal.vent` /
`PyVal.vdict`). -/
inductive PyKVs where
  | knil
  | kcons (k : String) (v : PyVal) (tl : PyKVs)
deriving DecidableEq
end

def PyList.toList : PyList → List PyVal
  | .nil => []
  | .cons h t => h :: t.toList

def PyList.ofList : List PyVal → PyList
  | [] => .nil
  | h :: t => .cons h (PyList.ofList t)

def PyKVs.toList : PyKVs → List (String × PyVal)
  | .knil => []
  | .kcons k v t => (k, v) :: t.toList

def PyKVs.ofList : List (String × PyVal) → PyKVs
  | [] => .knil
  | (k, v) :: t => .kcons k v (PyKVs.ofList t)

/-- Exceptions raised by the modelled code.  `fuelExhausted` is an embedding
artefact (see the module comment), not a Python exception. -/
inductive PyErr where
  | valueError (msg : String)
  | typeError (msg : String)
  | attributeError (msg : String)
  | keyError (msg : String)
  | indexError (msg : String)
  | fuelExhausted
deriving DecidableEq, Repr

deriving instance DecidableEq for Except

/-- First-occurrence lookup in an association list (Python `dict` access;
the key sets the source builds are duplicate free wherever it matters). -/
def lookupStr {α : Type} (l : List (String × α)) (k : String) : Option α :=
  match l with
  | [] => none
  | (k', v) :: t => if k' = k then some v else lookupStr t k

/-- An entity: a `BaseData` instance, as carried around by the table access
layer.  Identical content to `PyVal.vent`, packaged as a structure. -/
structure Entity where
  meta : MetaInformation
  vals : List (String × PyVal)
deriving DecidableEq

/-- Re-embed an `Entity` as a Python value. -/
def Entity.toVal (e : Entity) : PyVal := .vent e.meta (PyKVs.ofList e.vals)

/-! ## Utilities (`utils.py`) and `BaseData` value access (`BaseData.py`) -/

def litToPy : Lit → PyVal
  | .lnone => .vnone
  | .lint n => .vint n
  | .lstr s => .vstr s
  | .lbool b => .vbool b

/-- The columns of a declared field: `fields[attr]` is one `DBColumn` or a list
of them, and `utils.get_as_tuple` turns it into a tuple of that length
(`utils.py` lines 16-27; used by `get_db_value` at `BaseData.py` line 166). -/
def FieldSpec.cols : FieldSpec → List DBColumn
  | .single c => [c]
  | .compound cs => cs

/-- `utils.get_first_or_element` (lines 4-13), specialised to a declared field:
the element itself, or the first element of the list (raising `ValueError` on
an empty list). -/
def getFirstOrElement : FieldSpec → Except PyErr DBColumn
  | .single c => .ok c
  | .compound [] => .error (.valueError "List is empty")
  | .compound (c :: _) => .ok c

/-- `BaseData.get_db_value` (`BaseData.py` lines 156-173), fused with the `pk`
property (lines 129-137) at nested entities: a `None` value yields a tuple of
`None`s of the field's width, a `LazyField` yields its raw `db_value`, a nested
`BaseData` yields its flattened primary key (`value.pk`, which concatenates the
`get_db_value` of each primary-key field of the nested entity), a list yields a
tuple with `x.pk` substituted for each `BaseData` element, and any other value
yields itself as a 1-tuple.  The tuple is modelled as `List PyVal`.  The `fuel`
argument bounds the nesting depth of entities (embedding artefact). -/
def getDbValue : Nat → MetaInformation → List (String × PyVal) → String → Except PyErr (List PyVal)
  | 0, _, _, _ => .error .fuelExhausted
  | fuel+1, m, vals, attr =>
    match lookupStr m.fields attr with
    | none => .error (.valueError ("Column " ++ attr ++ " not found in meta information"))
    | some spec =>
      match lookupStr vals attr with
      | none => .error (.keyError attr)
      | some v =>
        match v with
        | .vnone => .ok (List.replicate spec.cols.length PyVal.vnone)
        | .vlazy dbv _ => .ok [dbv]
        | .vent m2 vs2 =>
          (m2.primary_keys.mapM (fun col => getDbValue fuel m2 vs2.toList col.field_name)).map
            List.flatten
        | .vlist xs =>
          xs.toList.mapM (fun x =>
            match x with
            | .vent m2 vs2 =>
              (m2.primary_keys.mapM (fun col => getDbValue fuel m2 vs2.toList col.field_name)).map
                (fun ps => PyVal.vtup (PyList.ofList ps.flatten))
            | x => .ok x)
        | v => .ok [v]

/-- The `pk` property (`BaseData.py` lines 129-137): the flattened primary key,
extending the `get_db_value` tuple of each primary-key field in order. -/
def entityPk (fuel : Nat) (m : MetaInformation) (vals : List (String × PyVal)) :
    Except PyErr (List PyVal) :=
  (m.primary_keys.mapM (fun col => getDbValue fuel m vals col.field_name)).map List.flatten

/-- The field-by-field comparison loop of `BaseData.__eq__` (`BaseData.py`
lines 52-54), with the source's early `return False` on the first mismatch. -/
def eqFieldsLoop (fuel : Nat) (m : MetaInformation) (vals1 vals2 : List (String × PyVal)) :
    List (String × FieldSpec) → Except PyErr Bool
  | [] => .ok true
  | (attr, _) :: rest => do
    let v1 ← getDbValue fuel m vals1 attr
    let v2 ← getDbValue fuel m vals2 attr
    if v1 = v2 then eqFieldsLoop fuel m vals1 vals2 rest else .ok false

/-- `BaseData.__eq__` (`BaseData.py` lines 47-55): `False` unless the other
object is of the same class (the class is represented by its metadata record);
`False` on differing primary keys; otherwise every declared field is compared
under `get_db_value`. -/
def eqE (fuel : Nat) (e1 e2 : Entity) : Except PyErr Bool :=
  if e1.meta = e2.meta then do
    let p1 ← entityPk fuel e1.meta e1.vals
    let p2 ← entityPk fuel e2.meta e2.vals
    if p1 = p2 then eqFieldsLoop fuel e1.meta e1.vals e2.vals e1.meta.fields
    else .ok false
  else .ok false

/-- `BaseData.__getattribute__` (`BaseData.py` lines 57-62) restricted to the
declared data fields: a missing attribute raises `AttributeError`, a stored
`LazyField` raises `AttributeError` (the "not loaded" signal), any other stored
value is returned unchanged. -/
def getattrE (e : Entity) (name : String) : Except PyErr PyVal :=
  match lookupStr e.vals name with
  | none => .error (.attributeError name)
  | some (.vlazy _ _) => .error (.attributeError name)
  | some v => .ok v

/-- The loop of `BaseData.get_values_for_columns` (`BaseData.py` lines
190-207), threading the `already_seen` set and the `values` accumulator. -/
def getValuesForColumnsAux (fuel : Nat) (m : MetaInformation) (vals : List (String × PyVal)) :
    List String → List String → List PyVal → Except PyErr (List PyVal)
  | [], _, acc => .ok acc
  | col :: rest, seen, acc =>
    match lookupStr m.db_columns col with
    | none => .error (.valueError ("Column " ++ col ++ " not found in meta information"))
    | some dbc =>
      if seen.contains dbc.field_name then getValuesForColumnsAux fuel m vals rest seen acc
      else do
        let vs ← getDbValue fuel m vals dbc.field_name
        getValuesForColumnsAux fuel m vals rest (seen ++ [dbc.field_name]) (acc ++ vs)

/-- `BaseData.get_values_for_columns` (`BaseData.py` lines 190-207). -/
def getValuesForColumns (fuel : Nat) (m : MetaInformation) (vals : List (String × PyVal))
    (cols : List String) : Except PyErr (List PyVal) :=
  getValuesForColumnsAux fuel m vals cols [] []

/-- `BaseData._is_type_or_list_type(value, expected_type)` (`BaseData.py` lines
85-92) with `expected_type` a concrete entity class, represented by its
metadata record (`isinstance` is modelled as metadata equality). -/
def isTypeOrList (target : MetaInformation) : PyVal → Bool
  | .vlist xs => xs.toList.all (fun x => match x with | .vent m _ => m == target | _ => false)
  | .vent m _ => m == target
  | _ => false

/-- `BaseData._is_type_or_list_type(value, BaseData)` as used by `__init__`
(`BaseData.py` line 36-37): is the value an entity, or a list of entities. -/
def isBaseDataOrList : PyVal → Bool
  | .vlist xs => xs.toList.all (fun x => match x with | .vent _ _ => true | _ => false)
  | .vent _ _ => true
  | _ => false

/-! ## Query builder (`QueryBuilder.py`) -/

/-- The `params` argument of `QueryBuilder.append` (`QueryBuilder.py` lines
19-22): absent (`None`), a list/tuple, or a bare value that is wrapped into a
one-element list. -/
inductive ParamsArg where
  | pnone
  | plist (ps : List PyVal)
  | pval (v : PyVal)
deriving DecidableEq

/-- Does `pat` occur at the head of `s`? (helper for the substring test). -/
def leadsWith : List Char → List Char → Bool
  | [], _ => true
  | _ :: _, [] => false
  | p :: ps, c :: cs => p == c && leadsWith ps cs

/-- Does `pat` occur anywhere in `s`? (helper for the substring test). -/
def occursIn (pat : List Char) : List Char → Bool
  | [] => pat.isEmpty
  | c :: cs => leadsWith pat (c :: cs) || occursIn pat cs

/-- Python `pat in s` substring test, used by `append` for `"FROM"`/`"WHERE"`
(`QueryBuilder.py` lines 27-31). -/
def strContains (s pat : String) : Bool := occursIn pat.data s.data

/-- The accumulator state of `QueryBuilder` (`QueryBuilder.py` lines 5-10). -/
structure QueryBuilder where
  _query : List String
  _params : List PyVal
  _has_from : Bool
  _has_where : Bool
deriving DecidableEq

/-- `QueryBuilder()` (`QueryBuilder.py` lines 5-10). -/
def QueryBuilder.empty : QueryBuilder := ⟨[], [], false, false⟩

/-- `QueryBuilder.append` with a string fragment (`QueryBuilder.py` lines
12-33, excluding the sub-builder dispatch on line 16-17, which is
`appendBuilder` below). -/
def QueryBuilder.append (qb : QueryBuilder) (query : String) (params : ParamsArg) :
    QueryBuilder :=
  let ps := match params with
    | .pnone => []
    | .plist l => l
    | .pval v => [v]
  { _query := qb._query ++ [query]
    _params := qb._params ++ ps
    _has_from := qb._has_from || strContains query "FROM"
    _has_where := qb._has_where || strContains query "WHERE" }

/-- `QueryBuilder._append_self` (`QueryBuilder.py` lines 91-97), reached when
`append` (or `+`) is given another builder: fragment and parameter lists are
extended, and — as in the source — the `_has_from`/`_has_where` flags of the
argument are NOT merged. -/
def QueryBuilder.appendBuilder (qb other : QueryBuilder) : QueryBuilder :=
  { qb with _query := qb._query ++ other._query, _params := qb._params ++ other._params }

/-- `QueryBuilder.appendWhereOrAnd` (`QueryBuilder.py` lines 35-45). -/
def QueryBuilder.appendWhereOrAnd (qb : QueryBuilder) (query : String) (params : ParamsArg) :
    QueryBuilder :=
  if qb._has_where then qb.append ("AND " ++ query) params
  else { qb with _has_where := true }.append ("WHERE " ++ query) params

/-- `", ".join(n placeholders)`. -/
def placeholdersOf (n : Nat) : String := String.intercalate ", " (List.replicate n "?")

/-- Python `len(v)` on a tuple/list value; `TypeError` otherwise (the
placeholder comprehension of `QueryBuilder.py` line 56). -/
def lenOfValue : PyVal → Except PyErr Nat :=
  fun v => match v with
  | .vtup l => .ok l.toList.length
  | .vlist l => .ok l.toList.length
  | _ => .error (.typeError "object has no len()")

/-- Iterating a tuple/list value (the `_flattern` comprehension of
`QueryBuilder.py` lines 99-105); `TypeError` otherwise. -/
def elemsOfValue : PyVal → Except PyErr (List PyVal) :=
  fun v => match v with
  | .vtup l => .ok l.toList
  | .vlist l => .ok l.toList
  | _ => .error (.typeError "cannot iterate a non-sequence value")

/-- `QueryBuilder.appendIn` (`QueryBuilder.py` lines 47-63).  The branch is
chosen by the first element, as in the source (`isinstance(values[0], tuple)
or isinstance(values[0], list)`); in the tuple branch a later element without
a `len` raises `TypeError` exactly where Python would. -/
def QueryBuilder.appendIn (qb : QueryBuilder) (values : List PyVal) :
    Except PyErr QueryBuilder :=
  if qb._has_where = false then
    .error (.valueError "IN clause must be preceded by a WHERE clause")
  else
    match values with
    | [] => .error (.valueError "IN clause cannot be empty")
    | v0 :: _ =>
      match v0 with
      | .vtup _ | .vlist _ => do
        let lens ← values.mapM lenOfValue
        let flat ← values.mapM elemsOfValue
        let placeholders :=
          String.intercalate ", " (lens.map (fun n => "(" ++ placeholdersOf n ++ ")"))
        .ok (qb.append ("IN (" ++ placeholders ++ ")") (.plist flat.flatten))
      | _ =>
        .ok (qb.append ("IN (" ++ placeholdersOf values.length ++ ")") (.plist values))

/-- The `query` property (`QueryBuilder.py` lines 107-112). -/
def QueryBuilder.query (qb : QueryBuilder) : String := String.intercalate " " qb._query

/-- The `params` property (`QueryBuilder.py` lines 114-119). -/
def QueryBuilder.params (qb : QueryBuilder) : List PyVal := qb._params

/-! ## Schema (`AbstractSchema.py`) and query generation (`QueryGenerator.py`) -/

/-- A concrete schema object: the read-only naming facts a table's
`AbstractSchema` subclass provides (`AbstractSchema.py`).  `aliasName` models the `alias`
property, which returns `""` when no alias is set (line 11: `self._alias or
""`); `alias` is a reserved word in this Lean environment. -/
structure SchemaM where
  aliasName : String
  table_name : String
  table_name_no_alias : String
  select : String
  columns : List String
  primaryKey : List String
deriving DecidableEq

/-- `QueryGenerator.generate_where_with_pk` (`QueryGenerator.py` lines 5-16). -/
def generate_where_with_pk (schema : SchemaM) (pk : List PyVal) : QueryBuilder :=
  let aliasDot := if schema.aliasName ≠ "" then schema.aliasName ++ "." else ""
  QueryBuilder.empty.append
    ("WHERE " ++
      String.intercalate " AND " (schema.primaryKey.map (fun col => aliasDot ++ col ++ " = ?")))
    (.plist pk)

/-- `QueryGenerator.generate_query_with_pk` (`QueryGenerator.py` lines 19-24).
The second `append` receives a builder, so it goes through `_append_self`. -/
def generate_query_with_pk (schema : SchemaM) (key : List PyVal) : QueryBuilder :=
  (QueryBuilder.empty.append (schema.select ++ " FROM " ++ schema.table_name) .pnone).appendBuilder
    (generate_where_with_pk schema key)

/-- Modelled from the spec: `schema.without_alias()` is called by
`AbstractTable._update` (line 119) and `_delete` (line 183) but no definition
of `without_alias` exists under `src/` (`AbstractSchema.py` only defines the
`no_alias` classmethod).  Spec section 4.3: "`without_alias()`/`no_alias()`
returns an equivalent schema with alias stripped, used when generating
UPDATE/DELETE statements".  The stripped schema keeps the same columns and
primary key, has no alias, and names the table without the alias suffix. -/
def withoutAlias (s : SchemaM) : SchemaM :=
  { aliasName := ""
    table_name := s.table_name_no_alias
    table_name_no_alias := s.table_name_no_alias
    select := s.select
    columns := s.columns
    primaryKey := s.primaryKey }

/-! ## Attribute access on `MetaInformation` (`ModelMeta.py` lines 6-13) -/

/-- The value of one attribute of a `MetaInformation` dataclass instance. -/
inductive MetaAttrVal where
  | fieldsAttr (v : List (String × FieldSpec))
  | dbColumnsAttr (v : List (String × DBColumn))
  | primaryKeysAttr (v : List DBColumn)
  | foreignKeysAttr (v : List (String × List DBColumn))
  | autoGeneratedAttr (v : List String)
deriving DecidableEq

/-- The attribute dictionary of a `MetaInformation` instance: the `@dataclass`
declaration (`ModelMeta.py` lines 6-13) declares exactly the five attributes
`fields`, `db_columns`, `primary_keys`, `foreign_keys`,
`auto_generated_fields`, and `ModelMeta.__new__` (lines 60-67) constructs the
record from exactly these five components. -/
def metaAttrs (m : MetaInformation) : List (String × MetaAttrVal) :=
  [("fields", .fieldsAttr m.fields),
   ("primary_keys", .primaryKeysAttr m.primary_keys),
   ("db_columns", .dbColumnsAttr m.db_columns),
   ("auto_generated_fields", .autoGeneratedAttr m.auto_generated_fields),
   ("foreign_keys", .foreignKeysAttr m.foreign_keys)]

/-- Python attribute access `getattr(meta_instance, name)`: `none` models
`AttributeError`. -/
def metaGetAttr (m : MetaInformation) (name : String) : Option MetaAttrVal :=
  lookupStr (metaAttrs m) name

/-- The expression `meta().one_to_many_fields` as evaluated by
`AbstractTable._update` (line 130), `_parse_db_result_to_dataclass` (line 241)
and `get_one_or_none_with_query` (line 292), expecting a map from attribute
name to column descriptor.  `MetaInformation` declares no such attribute, so
the access raises `AttributeError`; the second branch merely totalises the
match (none of the five declared attributes has the expected map type). -/
def metaOneToManyFields (m : MetaInformation) : Except PyErr (List (String × DBColumn)) :=
  match metaGetAttr m "one_to_many_fields" with
  | none => .error (.attributeError "one_to_many_fields")
  | some _ => .error (.typeError "attribute value is not a field map")

/-! ## Fetch policy and the table world -/

/-- Modelled from the spec: `FetchType` is imported by `AbstractTable.py` from
`OrmEnums`, which is not under `src/`.  Spec section 4.6: "`fetch_type` is a
two-state policy: `EAGER` (default) resolves all declared relationships
recursively; `LAZY` returns entities whose relationship fields are Lazy
References". -/
inductive FetchType where
  | EAGER
  | LAZY
deriving DecidableEq

/-- One registered table class: its schema object and its entity dataclass's
metadata. -/
structure TableM where
  schema : SchemaM
  meta : MetaInformation

/-- The table registry together with the database backend: `table` resolves a
table handle (the value of a `DBColumn.reference`) to its table object, and
`run tid q` is the row list (`execute_select_query(query).to_dict`) the
backend returns for query `q` on the read connection of table `tid`. -/
structure World where
  table : Nat → TableM
  run : Nat → QueryBuilder → List (List (String × PyVal))

/-! ## Entity construction (`BaseData.py` `__init__` and `from_db_dict`) -/

mutual

/-- `BaseData.__init__` (`BaseData.py` lines 16-41).  For each declared field,
the caller-supplied value or the field's default is taken; a dict value is
converted to a nested entity of the referenced dataclass; a list converts its
dict elements likewise; then a non-`None`, non-`LazyField` value of a field
with a `reference` that is not already (a list of) `BaseData` is wrapped in a
`LazyField`.  `validate_types` (line 41, lines 94-119) is not modelled: it
raises `TypeError` based on the Python class's type annotations, which are
outside the embedded data model, and never changes a stored value.
`initField` is the loop body for one declared field (lines 21-39). -/
def initE (w : World) : Nat → MetaInformation → List (String × PyVal) → Except PyErr Entity
  | 0, _, _ => .error .fuelExhausted
  | fuel+1, m, kwargs =>
    (m.fields.mapM (initField w fuel kwargs)).map (fun vals => ⟨m, vals⟩)
termination_by structural fuel => fuel

/-- One iteration of the `__init__` field loop (`BaseData.py` lines 21-39). -/
def initField (w : World) : Nat → List (String × PyVal) → (String × FieldSpec) →
    Except PyErr (String × PyVal)
  | 0, _, _ => .error .fuelExhausted
  | fuel+1, kwargs, fld => do
    -- line 22: `field_obj = get_first_or_element(field_obj)`; after this rebinding the
    -- `isinstance(field_obj, list)` branch on line 24 is dead, so the default value is
    -- always the descriptor's `default_value` (line 27).
    let fo ← getFirstOrElement fld.2
    let value := match lookupStr kwargs fld.1 with
      | some v => v
      | none => litToPy fo.default_value
    let value ← (match value with
      | PyVal.vdict kvs =>
        -- lines 29-31: `value = field_obj.reference.dataclass(**value)`; a `None`
        -- reference raises `AttributeError` on `.dataclass`.
        (match fo.reference with
         | none => Except.error (PyErr.attributeError "dataclass")
         | some r => (initE w fuel (w.table r).meta kvs.toList).map Entity.toVal)
      | PyVal.vlist xs => do
        -- lines 32-34
        let xs2 ← xs.toList.mapM (fun x => match x with
          | PyVal.vdict kvs =>
            (match fo.reference with
             | none => Except.error (PyErr.attributeError "dataclass")
             | some r => (initE w fuel (w.table r).meta kvs.toList).map Entity.toVal)
          | x => .ok x)
        .ok (PyVal.vlist (PyList.ofList xs2))
      | v => .ok v)
    -- lines 36-38
    let value := match value, fo.reference with
      | PyVal.vnone, _ => PyVal.vnone
      | PyVal.vlazy dbv r, _ => PyVal.vlazy dbv r
      | v, some r => if isBaseDataOrList v then v else PyVal.vlazy v r
      | v, none => v
    .ok (fld.1, value)
termination_by structural fuel => fuel

end

/-- One iteration of the `from_db_dict` field loop (`BaseData.py` lines
71-82): re-key the raw row entry from the field's (first) database column name
to the attribute name, wrapping a non-`None` value of a reference field that
is not already (a list of) the referenced dataclass in a `LazyField`. -/
def fromDbDictField (w : World) (db_dict : List (String × PyVal)) (fld : String × FieldSpec) :
    Except PyErr (String × PyVal) := do
  let dbcol ← (match fld.2 with
    | FieldSpec.compound [] => Except.error (PyErr.indexError "list index out of range")
    | FieldSpec.compound (c :: _) => .ok c
    | FieldSpec.single c => .ok c)
  let value := (lookupStr db_dict dbcol.db_field_name).getD PyVal.vnone
  match dbcol.reference with
  | some r =>
    if value ≠ PyVal.vnone ∧ isTypeOrList (w.table r).meta value = false then
      .ok (fld.1, PyVal.vlazy value r)
    else
      .ok (fld.1, value)
  | none => .ok (fld.1, value)

/-- `BaseData.from_db_dict` (`BaseData.py` lines 64-83): build the
attribute-keyed dict field by field, then construct the class from it. -/
def fromDbDict (w : World) (fuel : Nat) (m : MetaInformation)
    (db_dict : List (String × PyVal)) : Except PyErr Entity := do
  let new_dict ← m.fields.mapM (fromDbDictField w db_dict)
  initE w fuel m new_dict

/-- Modelled from the spec: `as_dict_with_db_names` appears in the spec's
round-trip property (section 8: "`E == from_db_dict(E.as_dict_with_db_names())`
reconstructs an equal entity") but no definition exists under `src/`
(`BaseData.py` only has `as_dict`, keyed by attribute names).  Following the
spec's words ("serializing E to a dictionary keyed by database column names"),
every database column of a declared field is keyed to that field's stored
value — the same convention `AbstractTable._set_values` (lines 300-302) uses
when writing a resolved value under each of a field's columns, and compatible
with `from_db_dict`'s documented input ("No dict nesting allowed only other
instances of BaseData").  The stored value is emitted unchanged, including an
unresolved `LazyField`; this is the reading most favourable to the round-trip
claim, since mirroring `as_dict`'s `getattr` access would already raise on any
lazy field. -/
def asDictWithDbNames (e : Entity) : List (String × PyVal) :=
  e.meta.fields.flatMap (fun fld =>
    (fld.2).cols.map (fun c => (c.db_field_name, (lookupStr e.vals fld.1).getD PyVal.vnone)))

/-! ## Transaction scopes (`Connection.py`) -/

/-- A call observed by the backend (the raw sqlite3 connection) from the
transaction-scope manager. -/
inductive BEvent where
  | connect
  | beginTx
  | commit
  | rollback
  | close
deriving DecidableEq, Repr

/-- The ambient state of `Connection.py`: the context variables
`_current_connection_var` (modelled by `conn`: is a connection object present)
and `_transaction_depth_var` (`depth`), together with the trace of backend
calls observed so far. -/
structure ConnState where
  depth : Nat
  conn : Bool
  events : List BEvent
deriving DecidableEq, Repr

/-- `Connection.__enter__` (`Connection.py` lines 21-33): if a connection is
already ambient, reuse it and increment the depth; otherwise open a fresh
connection (the backend observes the connect and the `BEGIN TRANSACTION`) and
set the depth to 1. -/
def enterScope (s : ConnState) : ConnState :=
  if s.conn then { s with depth := s.depth + 1 }
  else { depth := 1, conn := true, events := s.events ++ [.connect, .beginTx] }

/-- `Connection.__exit__` (`Connection.py` lines 35-58): return immediately at
depth `<= 0`; otherwise decrement the depth; only when the new depth is 0 does
the backend observe a rollback (exception pending) or a commit (no exception),
followed by clearing the ambient connection and closing it. -/
def exitScope (exc : Bool) (s : ConnState) : ConnState :=
  if s.depth = 0 then s
  else
    let d := s.depth - 1
    if d = 0 then
      { depth := 0, conn := false,
        events := s.events ++ [if exc then .rollback else .commit, .close] }
    else { s with depth := d }

mutual
/-- A well-bracketed transaction scope: its nested inner scopes in order, and
whether its own `__exit__` receives a pending exception.  The body's database
work is irrelevant to the scope manager (it goes through the connection
object, not through `__enter__`/`__exit__`), so it is not represented. -/
inductive ScopeTree where
  | node (children : ScopeForest) (exc : Bool)
/-- A sequence of sibling scopes. -/
inductive ScopeForest where
  | fnil
  | fcons (t : ScopeTree) (rest : ScopeForest)
end

mutual
/-- Execute one scope: enter, run the nested scopes, exit. -/
def runTree : ScopeTree → ConnState → ConnState
  | .node children exc, s => exitScope exc (runForest children (enterScope s))
/-- Execute sibling scopes in order. -/
def runForest : ScopeForest → ConnState → ConnState
  | .fnil, s => s
  | .fcons t rest, s => runForest rest (runTree t s)
end

/-! ## Table access layer (`AbstractTable.py`): helpers -/

/-- A raw database row (`execute_select_query(query).to_dict` element), or the
same row after eager substitution has replaced key values with entities. -/
abbrev Row := List (String × PyVal)

/-- The log of SELECT queries executed through table read connections: pairs of
the table handle and the query object passed to its `execute`. -/
abbrev QueryLog := List (Nat × QueryBuilder)

/-- `AbstractTable._get_fk_as_tuple` (lines 336-341): the tuple of the row's
values at the foreign key's database columns. -/
def getFkAsTuple (res : Row) (fk : List DBColumn) : Except PyErr (List PyVal) :=
  fk.mapM (fun c => match lookupStr res c.db_field_name with
    | some v => .ok v
    | none => Except.error (PyErr.keyError c.db_field_name))

/-- Deduplication keeping first occurrences: the model of building a Python
`set` from an iterable and listing it (set iteration order is implementation
defined; only membership matters to the properties proved here). -/
def dedupL {α : Type} [BEq α] (l : List α) : List α :=
  l.foldl (fun acc t => if acc.contains t then acc else acc ++ [t]) []

/-- Python dict assignment `row[k] = v` on a row. -/
def setKey (row : Row) (k : String) (v : PyVal) : Row :=
  if (lookupStr row k).isSome then row.map (fun p => if p.1 == k then (k, v) else p)
  else row ++ [(k, v)]

/-- `AbstractTable._set_values` (lines 300-302) and the per-column assignments
of lines 232-236: write `v` under every column of the field. -/
def setValues (row : Row) (cols : List DBColumn) (v : PyVal) : Row :=
  cols.foldl (fun r c => setKey r c.db_field_name v) row

/-- `AbstractTable._update_result_dict` (lines 257-263): replace each row's
value at `column` by its image under `map`, or by `dflt` when absent. -/
def updateResultDict (rows : List Row) (column : String) (map : List (PyVal × PyVal))
    (dflt : PyVal) : Except PyErr (List Row) :=
  rows.mapM (fun row => do
    let rv ← match lookupStr row column with
      | some v => Except.ok v
      | none => Except.error (PyErr.keyError column)
    match map.lookup rv with
    | some v => .ok (setKey row column v)
    | none => .ok (setKey row column dflt))

/-- Append `v` to the group of key `k` (the `result_map` accumulation of lines
247-252). -/
def groupAdd (acc : List (PyVal × List PyVal)) (k : PyVal) (v : PyVal) :
    List (PyVal × List PyVal) :=
  if acc.any (fun p => p.1 == k) then
    acc.map (fun p => if p.1 == k then (p.1, p.2 ++ [v]) else p)
  else acc ++ [(k, [v])]

/-- `AbstractTable.get_one` key normalisation (lines 38-39): a bare scalar is
wrapped into a one-element list; a list or tuple is used as is. -/
def normalizeKey : PyVal → List PyVal
  | .vtup l => l.toList
  | .vlist l => l.toList
  | v => [v]

/-! ## Table access layer: the read path

The functions below are mutually recursive across tables (eager resolution of a
referenced table re-enters the same code).  The recursion is bounded by a fuel
parameter consumed on every hop; `PyErr.fuelExhausted` is the embedding
artefact for running out (the source would recurse unboundedly on cyclic
references).  Each function returns the log of SELECT queries it executed
together with its result. -/

mutual

/-- `AbstractTable._parse_db_result_to_dataclass` (lines 199-255). -/
def parseDbResult (w : World) : Nat → Nat → List Row → FetchType →
    QueryLog × Except PyErr (List Entity)
  | 0, _, _, _ => ([], .error .fuelExhausted)
  | fuel+1, selfId, result, fetch =>
    let m := (w.table selfId).meta
    -- line 200: `foreign_key = self.dataclass.meta().foreign_keys.items()`
    let fks := m.foreign_keys
    -- lines 202-203
    if result.isEmpty then ([], .ok [])
    -- lines 204-205
    else if fetch = FetchType.LAZY then
      ([], result.mapM (fun row => fromDbDict w fuel m row))
    else
      -- lines 207-239: one pass per declared foreign-key field
      match parseFkLoop w fuel selfId fks result with
      | (log1, .error e) => (log1, .error e)
      | (log1, .ok rows1) =>
        -- line 241: `one_to_many_cols = self.dataclass.meta().one_to_many_fields.items()`;
        -- `MetaInformation` has no such attribute, so this access raises AttributeError
        match metaOneToManyFields m with
        | .error e => (log1, .error e)
        | .ok otm =>
          -- lines 243-253 (unreachable: the attribute access above always raises)
          match parseOtmLoop w fuel otm rows1 with
          | (log2, .error e) => (log1 ++ log2, .error e)
          | (log2, .ok rows2) =>
            -- line 255
            (log1 ++ log2, rows2.mapM (fun row => fromDbDict w fuel m row))
termination_by structural fuel => fuel

/-- The foreign-key pass of `_parse_db_result_to_dataclass` (lines 207-239),
one iteration per entry of `meta().foreign_keys`, threading the mutated row
list. -/
def parseFkLoop (w : World) : Nat → Nat → List (String × List DBColumn) → List Row →
    QueryLog × Except PyErr (List Row)
  | 0, _, _, _ => ([], .error .fuelExhausted)
  | _+1, _, [], rows => ([], .ok rows)
  | fuel+1, selfId, (_, values) :: rest, rows =>
    -- lines 208-209: the set of foreign-key tuples over all rows, then the
    -- sub-list of tuples with no `None` component
    match rows.mapM (fun row => getFkAsTuple row values) with
    | .error e => ([], .error e)
    | .ok tuples =>
      let fkvs := dedupL tuples
      let filtered := fkvs.filter (fun t => t.all (fun item => item != PyVal.vnone))
      -- lines 210-211
      if filtered.length = 0 then parseFkLoop w fuel selfId rest rows
      else
        match values with
        | [] => ([], .error (.indexError "list index out of range"))
        | v0 :: _ =>
          match v0.reference with
          | none => ([], .error (.typeError "NoneType object is not callable"))
          | some refId =>
            let rschema := (w.table refId).schema
            -- lines 214-219
            let q0 := (QueryBuilder.empty.append
                ("SELECT * FROM " ++ rschema.table_name ++ " ") .pnone).append
                ("WHERE (" ++ String.intercalate ", " rschema.primaryKey ++ ")") .pnone
            match q0.appendIn (filtered.map (fun t => PyVal.vtup (PyList.ofList t))) with
            | .error e => ([], .error e)
            | .ok q =>
              -- line 221: exactly one batched query, resolved EAGER through the
              -- referenced table
              match getDataWithQuery w fuel refId q FetchType.EAGER with
              | (log1, .error e) => (log1, .error e)
              | (log1, .ok fkResult) =>
                let fpk := rschema.primaryKey
                if fpk.length > 1 then
                  -- lines 225-236 (composite referenced key): `lookup_map[i.pk] = i`
                  match fkResult.mapM
                      (fun i => (entityPk fuel i.meta i.vals).map (fun p => (p, i))) with
                  | .error e => (log1, .error e)
                  | .ok entries =>
                    match rows.mapM (fun row => do
                        let rv ← getFkAsTuple row values
                        match entries.lookup rv with
                        | some i => .ok (setValues row values i.toVal)
                        | none => .ok (setValues row values PyVal.vnone)) with
                    | .error e => (log1, .error e)
                    | .ok rows2 =>
                      match parseFkLoop w fuel selfId rest rows2 with
                      | (log2, r) => (log1 ++ log2, r)
                else
                  -- lines 237-239 (single-column referenced key):
                  -- `{getattr(i, referenced_schema.primaryKey[0]): i ...}`
                  match fpk with
                  | [] => (log1, .error (.indexError "list index out of range"))
                  | pkcol :: _ =>
                    match fkResult.mapM
                        (fun i => (getattrE i pkcol).map (fun k => (k, i.toVal))) with
                    | .error e => (log1, .error e)
                    | .ok fkMap =>
                      match updateResultDict rows v0.db_field_name fkMap PyVal.vnone with
                      | .error e => (log1, .error e)
                      | .ok rows2 =>
                        match parseFkLoop w fuel selfId rest rows2 with
                        | (log2, r) => (log1 ++ log2, r)
termination_by structural fuel => fuel

/-- The one-to-many pass of `_parse_db_result_to_dataclass` (lines 243-253).
Unreachable in every execution — the `meta().one_to_many_fields` access on line
241 raises — but translated for completeness.  (Were it reached, its
`QueryBuilder().append(value.referenced_column).appendIn(...)` on line 245
would itself raise: the fresh builder has no WHERE clause.) -/
def parseOtmLoop (w : World) : Nat → List (String × DBColumn) → List Row →
    QueryLog × Except PyErr (List Row)
  | 0, _, _ => ([], .error .fuelExhausted)
  | _+1, [], rows => ([], .ok rows)
  | fuel+1, (_, value) :: rest, rows =>
    -- line 244
    match rows.mapM (fun row => match lookupStr row value.db_field_name with
        | some v => Except.ok v
        | none => Except.error (PyErr.keyError value.db_field_name)) with
    | .error e => ([], .error e)
    | .ok vs =>
      let db_values := dedupL vs
      -- line 245; `append(None)` raises TypeError inside `append` (`"FROM" in None`)
      match value.referenced_column with
      | none => ([], .error (.typeError "argument of type NoneType is not iterable"))
      | some rc =>
        match (QueryBuilder.empty.append rc .pnone).appendIn db_values with
        | .error e => ([], .error e)
        | .ok q =>
          match value.reference with
          | none => ([], .error (.typeError "NoneType object is not callable"))
          | some refId =>
            -- line 246
            match getDataWithWhere w fuel refId q FetchType.EAGER with
            | (log1, .error e) => (log1, .error e)
            | (log1, .ok otmResult) =>
              -- lines 247-252: group the child entities by the referenced column's value
              match otmResult.foldlM (fun acc row => do
                  let k ← getattrE row rc
                  Except.ok (groupAdd acc k row.toVal)) [] with
              | .error e => (log1, .error e)
              | .ok groups =>
                let groupMap := groups.map (fun p => (p.1, PyVal.vlist (PyList.ofList p.2)))
                -- line 253, with `default=[]`
                match updateResultDict rows value.db_field_name groupMap (PyVal.vlist .nil) with
                | .error e => (log1, .error e)
                | .ok rows2 =>
                  match parseOtmLoop w fuel rest rows2 with
                  | (log2, r) => (log1 ++ log2, r)
termination_by structural fuel => fuel

/-- `AbstractTable.get_data_with_query` (lines 192-197): execute the SELECT on
the table's read connection and parse the rows. -/
def getDataWithQuery (w : World) : Nat → Nat → QueryBuilder → FetchType →
    QueryLog × Except PyErr (List Entity)
  | 0, _, _, _ => ([], .error .fuelExhausted)
  | fuel+1, selfId, q, fetch =>
    let rows := w.run selfId q
    match parseDbResult w fuel selfId rows fetch with
    | (log, r) => ((selfId, q) :: log, r)
termination_by structural fuel => fuel

/-- `AbstractTable.get_data_with_where` (lines 304-309): prefix the WHERE
fragment with the table's SELECT and delegate. -/
def getDataWithWhere (w : World) : Nat → Nat → QueryBuilder → FetchType →
    QueryLog × Except PyErr (List Entity)
  | 0, _, _, _ => ([], .error .fuelExhausted)
  | fuel+1, selfId, q, fetch =>
    getDataWithQuery w fuel selfId
      ((QueryBuilder.empty.append
          ("SELECT * FROM " ++ (w.table selfId).schema.table_name_no_alias ++ " WHERE")
          .pnone).appendBuilder q)
      fetch
termination_by structural fuel => fuel

/-- `AbstractTable.get_one_or_none_with_query` (lines 276-298): `None` on an
empty result; otherwise the first row, with per-row eager resolution under
`EAGER` (each foreign key resolved through the referenced table's `get_one`,
then the `meta().one_to_many_fields` access of line 292 — which raises). -/
def getOneOrNoneWithQuery (w : World) : Nat → Nat → QueryBuilder → FetchType →
    QueryLog × Except PyErr (Option Entity)
  | 0, _, _, _ => ([], .error .fuelExhausted)
  | fuel+1, selfId, q, fetch =>
    let m := (w.table selfId).meta
    let rows := w.run selfId q
    let log0 := [(selfId, q)]
    match rows with
    -- lines 283-284
    | [] => (log0, .ok none)
    | row :: _ =>
      if fetch = FetchType.EAGER then
        -- lines 287-290
        match getOneFkLoop w fuel m.foreign_keys row with
        | (log1, .error e) => (log0 ++ log1, .error e)
        | (log1, .ok row1) =>
          -- line 292: `meta().one_to_many_fields` — raises AttributeError
          match metaOneToManyFields m with
          | .error e => (log0 ++ log1, .error e)
          | .ok otm =>
            -- lines 293-296 (unreachable)
            match getOneOtmLoop w fuel otm row1 with
            | (log2, .error e) => (log0 ++ log1 ++ log2, .error e)
            | (log2, .ok row2) => (log0 ++ log1 ++ log2, (fromDbDict w fuel m row2).map some)
      else
        -- line 298
        (log0, (fromDbDict w fuel m row).map some)
termination_by structural fuel => fuel

/-- The foreign-key pass of `get_one_or_none_with_query` (lines 287-290):
resolve each foreign key through the referenced table's `get_one` with
`nullable=True`, and write the result under every column of the field. -/
def getOneFkLoop (w : World) : Nat → List (String × List DBColumn) → Row →
    QueryLog × Except PyErr Row
  | 0, _, _ => ([], .error .fuelExhausted)
  | _+1, [], row => ([], .ok row)
  | fuel+1, (_, values) :: rest, row =>
    match getFkAsTuple row values with
    | .error e => ([], .error e)
    | .ok key =>
      match values with
      | [] => ([], .error (.indexError "list index out of range"))
      | v0 :: _ =>
        match v0.reference with
        | none => ([], .error (.typeError "NoneType object is not callable"))
        | some refId =>
          match getOne w fuel refId (PyVal.vtup (PyList.ofList key)) true FetchType.EAGER with
          | (log1, .error e) => (log1, .error e)
          | (log1, .ok res) =>
            let rv := match res with
              | some e => e.toVal
              | none => PyVal.vnone
            match getOneFkLoop w fuel rest (setValues row values rv) with
            | (log2, r) => (log1 ++ log2, r)
termination_by structural fuel => fuel

/-- The one-to-many pass of `get_one_or_none_with_query` (lines 292-296),
unreachable for the same reason as `parseOtmLoop` but translated for
completeness.  A `None` `referenced_column` is rendered as the string `None`
by the f-string of line 294. -/
def getOneOtmLoop (w : World) : Nat → List (String × DBColumn) → Row →
    QueryLog × Except PyErr Row
  | 0, _, _ => ([], .error .fuelExhausted)
  | _+1, [], row => ([], .ok row)
  | fuel+1, (_, values) :: rest, row =>
    match lookupStr row values.db_field_name with
    | none => ([], .error (.keyError values.db_field_name))
    | some key =>
      let rc := match values.referenced_column with
        | some s => s
        | none => "None"
      let q := QueryBuilder.empty.append (rc ++ " = ?;") (.plist [key])
      match values.reference with
      | none => ([], .error (.typeError "NoneType object is not callable"))
      | some refId =>
        match getDataWithWhere w fuel refId q FetchType.EAGER with
        | (log1, .error e) => (log1, .error e)
        | (log1, .ok res) =>
          -- line 296: `resolved_value or []` — an empty list is falsy and is
          -- replaced by `[]`, itself the empty list
          let rv := PyVal.vlist (PyList.ofList (res.map Entity.toVal))
          match getOneOtmLoop w fuel rest (setKey row values.db_field_name rv) with
          | (log2, r) => (log1 ++ log2, r)
termination_by structural fuel => fuel

/-- `AbstractTable.get_one` (lines 34-44): normalise a bare scalar key to a
one-element list, build the primary-key query, and raise `ValueError` on a
missing row unless `nullable`. -/
def getOne (w : World) : Nat → Nat → PyVal → Bool → FetchType →
    QueryLog × Except PyErr (Option Entity)
  | 0, _, _, _, _ => ([], .error .fuelExhausted)
  | fuel+1, selfId, key, nullable, fetch =>
    -- lines 38-39
    let keyList := normalizeKey key
    -- line 40
    let q := generate_query_with_pk (w.table selfId).schema keyList
    -- lines 41-44
    match getOneOrNoneWithQuery w fuel selfId q fetch with
    | (log, .error e) => (log, .error e)
    | (log, .ok none) =>
      if nullable then (log, .ok none)
      else (log, .error (.valueError "No data found for key"))
    | (log, .ok (some e)) => (log, .ok (some e))
termination_by structural fuel => fuel

end

/-! ## Update path (`AbstractTable._update`, lines 108-169) -/

/-- `AbstractTable._get_different_columns` (lines 157-169): for each declared
field (and each of its columns), skip primary-key columns and auto-generated
columns, and collect the database column name when the two entities'
`get_db_value` of the attribute differ.  The source collects into a `set`;
the model keeps first-insertion order (only membership matters). -/
def getDifferentColumnsAux (fuel : Nat) (m : MetaInformation)
    (vals1 vals2 : List (String × PyVal)) :
    List (String × FieldSpec) → List String → Except PyErr (List String)
  | [], acc => .ok acc
  | (k, spec) :: rest, acc => do
    let acc2 ← spec.cols.foldlM (fun acc2 field => do
      if (m.primary_keys.map (fun f => f.db_field_name)).contains field.db_field_name then
        Except.ok acc2
      else if field.auto_generated then Except.ok acc2
      else do
        let v1 ← getDbValue fuel m vals1 k
        let v2 ← getDbValue fuel m vals2 k
        if v1 ≠ v2 then
          Except.ok (if acc2.contains field.db_field_name then acc2
                     else acc2 ++ [field.db_field_name])
        else Except.ok acc2) acc
    getDifferentColumnsAux fuel m vals1 vals2 rest acc2

/-- `AbstractTable._get_different_columns` (lines 157-169). -/
def getDifferentColumns (fuel : Nat) (m : MetaInformation)
    (vals1 vals2 : List (String × PyVal)) : Except PyErr (List String) :=
  getDifferentColumnsAux fuel m vals1 vals2 m.fields []

/-- A call issued to the write connection.  `Connection.__enter__` returns the
raw `sqlite3.Connection`, so `execBuilder` is a call that passes a
`QueryBuilder` object where the driver expects a SQL string (as
`AbstractTable._update` line 128 and `AbstractTable.execute` line 354 do). -/
inductive RawCall where
  | execBuilder (q : QueryBuilder)
  | execStr (sql : String) (params : Option (List PyVal))
  | execMany (sql : String) (paramsList : List (List PyVal))
deriving DecidableEq

/-- The raw `sqlite3.Connection.execute`/`executemany` of the standard
library: the first argument must be a SQL string; passing a `QueryBuilder`
object raises `TypeError` (spec section 6 gives the backend contract
`execute(query, params)` with `query` SQL text).  Placeholder/parameter-count
mismatches of string calls raise `ProgrammingError` in sqlite3; no verified
property depends on them, so string calls are modelled as accepted. -/
def rawConnExecute : RawCall → Except PyErr Unit
  | .execBuilder _ => .error (.typeError "execute argument 1 must be str, not QueryBuilder")
  | .execStr _ _ => .ok ()
  | .execMany _ _ => .ok ()

/-- The one-to-many cascade of `_update` (lines 130-155).  Unreachable in
every execution — the `meta().one_to_many_fields` access on line 130 raises —
but translated for completeness. -/
def updateOtmLoop (w : World) (fuel : Nat) (data : Entity) (diffs : List String) :
    List (String × DBColumn) → List RawCall → List RawCall × Except PyErr Unit
  | [], calls => (calls, .ok ())
  | (_, col) :: rest, calls =>
    -- lines 131-132
    if diffs.contains col.db_field_name then
      (calls, .error (.valueError
        "Cannot upda8te one-to-many fields directly. Update the related table instead."))
    else
      -- line 134: `getattr(data, col.db_field_name)`
      match getattrE data col.db_field_name with
      | .error e => (calls, .error e)
      | .ok otmData =>
        match otmData with
        | PyVal.vlist xs =>
          -- lines 135-136
          if xs.toList.isEmpty then updateOtmLoop w fuel data diffs rest calls
          else
            -- line 138: `col.reference.schema.without_alias()`
            match col.reference with
            | none => (calls, .error (.attributeError "schema"))
            | some refId =>
              let sc := withoutAlias (w.table refId).schema
              -- line 139
              let columns_to_update := sc.columns.filter (fun c2 => !(sc.primaryKey.contains c2))
              -- lines 140-145
              let reference_query := ((QueryBuilder.empty.append
                  ("UPDATE " ++ sc.table_name) .pnone).append
                  ("SET " ++ String.intercalate ", "
                    (columns_to_update.map (fun c2 => c2 ++ " = ?"))) .pnone).appendBuilder
                  (generate_where_with_pk sc [])
              -- lines 146-150
              match xs.toList.mapM (fun item => match item with
                  | PyVal.vent m2 vs2 => do
                    let dbc ← getValuesForColumns fuel m2 vs2.toList columns_to_update
                    let p ← entityPk fuel m2 vs2.toList
                    Except.ok (dbc ++ p)
                  | _ => Except.error (PyErr.attributeError "get_values_for_columns")) with
              | .error e => (calls, .error e)
              | .ok paramsList =>
                -- line 151: `conn.executemany(reference_query.query, params)` — a string,
                -- accepted by the raw connection
                let calls2 := calls ++ [RawCall.execMany reference_query.query paramsList]
                -- lines 152-155: the orphan-cleanup DELETE, passed as a builder to
                -- `self.execute`, which hands it to the raw connection
                match getDbValue fuel data.meta data.vals col.field_name with
                | .error e => (calls2, .error e)
                | .ok delParams =>
                  match xs.toList.mapM (fun item => match item with
                      | PyVal.vent m2 vs2 => (entityPk fuel m2 vs2.toList).map
                          (fun p => PyVal.vtup (PyList.ofList p))
                      | _ => Except.error (PyErr.attributeError "pk")) with
                  | .error e => (calls2, .error e)
                  | .ok itemPks =>
                    let rc := match col.referenced_column with
                      | some s => s
                      | none => "None"
                    match ((QueryBuilder.empty.append
                        ("DELETE FROM " ++ sc.table_name ++ " WHERE " ++ rc ++ " = ? AND ")
                        (.plist delParams)).append
                        ("NOT (" ++ String.intercalate ", " sc.primaryKey ++ ")")
                        .pnone).appendIn itemPks with
                    | .error e => (calls2, .error e)
                    | .ok delQuery =>
                      match rawConnExecute (RawCall.execBuilder delQuery) with
                      | .error e => (calls2 ++ [RawCall.execBuilder delQuery], .error e)
                      | .ok _ => updateOtmLoop w fuel data diffs rest
                          (calls2 ++ [RawCall.execBuilder delQuery])
        | _ => updateOtmLoop w fuel data diffs rest calls

/-- `AbstractTable._update` (lines 114-155): fetch the persisted row LAZY,
diff, and issue the UPDATE (only when columns differ) followed by the
one-to-many cascade, inside one transaction scope.  Returns the SELECT log,
the calls handed to the write connection, and the outcome.  The surrounding
`with Connection()` scope (line 117) commits or rolls back per
`enterScope`/`exitScope`. -/
def updateM (w : World) (fuel : Nat) (selfId : Nat) (data : Entity) :
    QueryLog × List RawCall × Except PyErr Unit :=
  -- line 115: `existing_data = self.get_one(data.pk, fetch_type=FetchType.LAZY)`
  match entityPk fuel data.meta data.vals with
  | .error e => ([], [], .error e)
  | .ok pkv =>
    match getOne w fuel selfId (PyVal.vtup (PyList.ofList pkv)) false FetchType.LAZY with
    | (log1, .error e) => (log1, [], .error e)
    | (log1, .ok none) =>
      -- unreachable: `nullable=False` raises instead of returning `None`
      (log1, [], .error (.attributeError "get_db_value"))
    | (log1, .ok (some existing)) =>
      -- line 116
      match getDifferentColumns fuel data.meta data.vals existing.vals with
      | .error e => (log1, [], .error e)
      | .ok diffs =>
        -- line 117: `with Connection() as conn:` — `conn` is the raw sqlite3 connection
        if diffs.isEmpty then
          -- line 130: `data.meta().one_to_many_fields` — raises AttributeError
          match metaOneToManyFields data.meta with
          | .error e => (log1, [], .error e)
          | .ok otm =>
            match updateOtmLoop w fuel data diffs otm [] with
            | (calls, r) => (log1, calls, r)
        else
          -- line 119 (`without_alias`, modelled from the spec) and lines 121-127
          let schema2 := withoutAlias (w.table selfId).schema
          match getValuesForColumns fuel data.meta data.vals diffs with
          | .error e => (log1, [], .error e)
          | .ok attr =>
            let main_query := ((QueryBuilder.empty.append
                ("UPDATE " ++ schema2.table_name) .pnone).append
                ("SET " ++ String.intercalate ", " (diffs.map (fun col => col ++ " = ?")))
                (.plist attr)).appendBuilder
                (generate_where_with_pk schema2 pkv)
            -- line 128: `conn.execute(main_query)` — the builder object (and not its
            -- parameters) is handed to the raw connection, which requires a string
            match rawConnExecute (RawCall.execBuilder main_query) with
            | .error e => (log1, [RawCall.execBuilder main_query], .error e)
            | .ok _ =>
              match metaOneToManyFields data.meta with
              | .error e => (log1, [RawCall.execBuilder main_query], .error e)
              | .ok otm =>
                match updateOtmLoop w fuel data diffs otm [RawCall.execBuilder main_query] with
                | (calls, r) => (log1, calls, r)

/-! ## Predicates used by the theorems -/

/-- A builder obtained from `QueryBuilder()` by a sequence of direct
`append(fragment_string, params)` calls. -/
def buildFrom (frags : List (String × ParamsArg)) : QueryBuilder :=
  frags.foldl (fun qb fp => qb.append fp.1 fp.2) QueryBuilder.empty

/-- Do the primary key (`pk`) and every declared field's `get_db_value`
evaluate without raising (and within the given nesting fuel) on this
entity? -/
def succeedsAllB (fuel : Nat) (m : MetaInformation) (vals : List (String × PyVal)) : Bool :=
  (entityPk fuel m vals).isOk &&
  m.fields.all (fun p => (getDbValue fuel m vals p.1).isOk)

/-- Value shapes preserved exactly by `from_db_dict ∘ as_dict_with_db_names`:
`None`; for a non-reference field a scalar, a tuple, or a list without dict
elements; for a reference field a resolved entity of the referenced dataclass
or a list of them.  Unresolved `LazyField`s (and raw scalars sitting in
reference fields, which only arise through `set_db_value`) are excluded: see
the `from_db_dict` double-wrapping counterexample. -/
def cleanFieldShape (w : World) (spec : FieldSpec) (v : PyVal) : Bool :=
  match spec.cols with
  | [] => false
  | c :: _ =>
    match c.reference with
    | none =>
      match v with
      | .vnone => true
      | .vint _ => true
      | .vstr _ => true
      | .vbool _ => true
      | .vtup _ => true
      | .vlist xs => xs.toList.all (fun x => match x with | .vdict _ => false | _ => true)
      | _ => false
    | some r =>
      match v with
      | .vnone => true
      | .vent m2 _ => m2 == (w.table r).meta
      | .vlist xs => xs.toList.all (fun x => match x with
          | .vent m2 _ => m2 == (w.table r).meta
          | _ => false)
      | _ => false

/-- A well-formed resolved entity: the database column names of its declared
fields are pairwise distinct (they key the `db_columns` dict in the source),
its `__dict__` holds exactly the declared fields in declaration order, and
every stored value has a shape `from_db_dict ∘ as_dict_with_db_names`
preserves. -/
def cleanEntityB (w : World) (e : Entity) : Bool :=
  decide ((e.meta.fields.flatMap (fun p => p.2.cols.map (fun c => c.db_field_name))).Nodup) &&
  (e.vals == e.meta.fields.map (fun p => (p.1, (lookupStr e.vals p.1).getD PyVal.vnone))) &&
  e.meta.fields.all (fun p => cleanFieldShape w p.2 ((lookupStr e.vals p.1).getD PyVal.vnone))

/-! ## Concrete instances used by the closed theorems and witnesses

A customer table (handle 0) with a scalar primary key, referenced by an orders
table (handle 1) through a single-column foreign key — the spec's worked
example configuration. -/

def custIdCol : DBColumn := ⟨"id", "id", false, none, true, .lnone, false, none⟩

def custMeta : MetaInformation :=
  ⟨[("id", .single custIdCol)], [("id", custIdCol)], [custIdCol], [], []⟩

def custSchema : SchemaM := ⟨"", "customer", "customer", "SELECT *", ["id"], ["id"]⟩

def ordIdCol : DBColumn := ⟨"id", "id", false, none, true, .lnone, false, none⟩

def ordFkCol : DBColumn := ⟨"fk", "fk", true, some 0, false, .lnone, false, none⟩

def ordMeta : MetaInformation :=
  ⟨[("id", .single ordIdCol), ("fk", .single ordFkCol)],
   [("id", ordIdCol), ("fk", ordFkCol)], [ordIdCol], [("fk", [ordFkCol])], []⟩

def ordSchema : SchemaM := ⟨"", "orders", "orders", "SELECT *", ["id", "fk"], ["id"]⟩

/-- Stored customer rows with keys 1 and 2. -/
def custRows : List Row := [[("id", .vint 1)], [("id", .vint 2)]]

/-- The world of the worked example: the customer table holds rows 1 and 2
(any SELECT on it returns them — the only query issued is the batched IN
query over exactly those keys). -/
def exWorld : World :=
  ⟨fun tid => if tid = 0 then ⟨custSchema, custMeta⟩ else ⟨ordSchema, ordMeta⟩,
   fun tid _ => if tid = 0 then custRows else []⟩

/-- The spec's example raw result set: `[{fk: 1}, {fk: 2}, {fk: null}]`. -/
def exRows : List Row :=
  [[("id", .vint 10), ("fk", .vint 1)],
   [("id", .vint 11), ("fk", .vint 2)],
   [("id", .vint 12), ("fk", .vnone)]]

/-- The batched query the foreign-key pass issues on the example: `SELECT *
FROM customer  WHERE (id) IN ((?), (?))` with parameters 1, 2 (note that the
sub-builder merge leaves `_has_where` untouched and the direct string appends
set both flags). -/
def exBatchQuery : QueryBuilder :=
  ⟨["SELECT * FROM customer ", "WHERE (id)", "IN ((?), (?))"], [.vint 1, .vint 2], true, true⟩

/-- A world whose every SELECT returns no rows (for the `get_one` witness). -/
def emptyWorld : World :=
  ⟨fun _ => ⟨ordSchema, ordMeta⟩, fun _ _ => []⟩

/-- An order holding an unresolved lazy reference with raw key 5. -/
def lazyOrder : Entity := ⟨ordMeta, [("id", .vint 1), ("fk", .vlazy (.vint 5) 0)]⟩

/-- The same order with the reference resolved to the customer with key 5. -/
def resolvedOrder : Entity :=
  ⟨ordMeta, [("id", .vint 1), ("fk", .vent custMeta (.kcons "id" (.vint 5) .knil))]⟩

/-- A users table for the update example: aliased schema, scalar primary key
`id` and one updatable column `name`. -/
def userIdCol : DBColumn := ⟨"id", "id", false, none, true, .lnone, false, none⟩

def userNameCol : DBColumn := ⟨"name", "name", false, none, false, .lnone, false, none⟩

def userMeta : MetaInformation :=
  ⟨[("id", .single userIdCol), ("name", .single userNameCol)],
   [("id", userIdCol), ("name", userNameCol)], [userIdCol], [], []⟩

def userSchema : SchemaM :=
  ⟨"u", "users AS u", "users", "SELECT u.*", ["id", "name"], ["id"]⟩

/-- The persisted row of the update example: `id = 1`, `name = 'old'`. -/
def userWorld : World :=
  ⟨fun _ => ⟨userSchema, userMeta⟩, fun _ _ => [[("id", .vint 1), ("name", .vstr "old")]]⟩

/-- An in-memory user whose `name` was changed. -/
def userChanged : Entity := ⟨userMeta, [("id", .vint 1), ("name", .vstr "new")]⟩

/-- An in-memory user identical to its persisted state. -/
def userSame : Entity := ⟨userMeta, [("id", .vint 1), ("name", .vstr "old")]⟩

/-- The LAZY refetch `_update` performs (`get_one(data.pk, fetch_type=LAZY)`):
`SELECT u.* FROM users AS u WHERE u.id = ?` with parameter 1. -/
def userSelectQuery : QueryBuilder :=
  ⟨["SELECT u.* FROM users AS u", "WHERE u.id = ?"], [.vint 1], true, false⟩

/-- The UPDATE built for the changed user: `UPDATE users SET name = ? WHERE
id = ?` with parameters `'new', 1` (then handed as a builder object to the raw
connection). -/
def userMainQuery : QueryBuilder :=
  ⟨["UPDATE users", "SET name = ?", "WHERE id = ?"], [.vstr "new", .vint 1], false, false⟩

/-- A builder containing a WHERE fragment, appended to a fresh builder through
the sub-builder path (`append(QueryBuilder)` / `_append_self`). -/
def whereSubBuilder : QueryBuilder := QueryBuilder.empty.append "WHERE x = 1" .pnone

/-- The merged builder: its fragment list contains a WHERE clause but its
`_has_where` flag is still `false`, because `_append_self` does not merge
flags. -/
def mergedBuilder : QueryBuilder := QueryBuilder.empty.appendBuilder whereSubBuilder

/-! ## Theorems -/

@[simp] theorem PyList.toList_ofList (l : List PyVal) : (PyList.ofList l).toList = l := by
  induction l with
  | nil => rfl
  | cons h t ih => simp [PyList.ofList, PyList.toList, ih]

@[simp] theorem PyList.ofList_toList : ∀ (l : PyList), PyList.ofList l.toList = l
  | .nil => rfl
  | .cons h t => by simp [PyList.toList, PyList.ofList, PyList.ofList_toList t]

@[simp] theorem PyKVs.toList_ofList_kvs (l : List (String × PyVal)) : (PyKVs.ofList l).toList = l := by
  induction l with
  | nil => rfl
  | cons h t ih => cases h; simp [PyKVs.ofList, PyKVs.toList, ih]

/-- C3: for every entity type registered with the metadata registry, the claim
says the derived metadata record contains all six declared components,
including a `one_to_many_fields` map.  It does not: the `MetaInformation`
dataclass declares exactly the five attributes `fields`, `primary_keys`,
`db_columns`, `auto_generated_fields`, `foreign_keys` (the keys of the `meta`
dict built by `ModelMeta.__new__`, lines 60-67), and reading
`one_to_many_fields` — as `AbstractTable._update` (line 130),
`_parse_db_result_to_dataclass` (line 241) and `get_one_or_none_with_query`
(line 292) all do — raises `AttributeError` on every metadata record. -/
theorem metaInformation_has_no_one_to_many_fields (m : MetaInformation) :
    metaGetAttr m "one_to_many_fields" = none ∧
    metaOneToManyFields m = .error (.attributeError "one_to_many_fields") ∧
    (metaAttrs m).map (fun p => p.1) =
      ["fields", "primary_keys", "db_columns", "auto_generated_fields", "foreign_keys"] :=
  ⟨rfl, rfl, rfl⟩

/-- C8: reading a declared field whose stored value is still a `LazyField`
placeholder raises `AttributeError` (the "not loaded" signal, distinguishable
from a stored `None`, which is returned as-is like every resolved value). -/
theorem lazy_field_access_signals_not_loaded (e : Entity) (name : String) :
    (∀ dbv r, lookupStr e.vals name = some (PyVal.vlazy dbv r) →
      getattrE e name = .error (.attributeError name)) ∧
    (∀ v, lookupStr e.vals name = some v → (∀ dbv r, v ≠ PyVal.vlazy dbv r) →
      getattrE e name = .ok v) := by
  constructor
  · intro dbv r h
    simp [getattrE, h]
  · intro v h hv
    unfold getattrE
    rw [h]
    cases v with
    | vlazy dbv r => exact absurd rfl (hv dbv r)
    | vnone => rfl
    | vint n => rfl
    | vstr s => rfl
    | vbool b => rfl
    | vtup xs => rfl
    | vlist xs => rfl
    | vent m2 vs2 => rfl
    | vdict kvs => rfl

/-- C8 witness: a lazy `fk` field signals not-loaded; a resolved scalar field
is returned unchanged. -/
theorem lazy_field_access_signals_not_loaded_witness :
    getattrE lazyOrder "fk" = .error (.attributeError "fk") ∧
    getattrE lazyOrder "id" = .ok (.vint 1) := by
  constructor
  · exact (lazy_field_access_signals_not_loaded lazyOrder "fk").1 (.vint 5) 0 (by decide)
  · exact (lazy_field_access_signals_not_loaded lazyOrder "id").2 (.vint 1) (by decide)
      (fun dbv r h => PyVal.noConfusion h)

mutual

/-- Inside an ambient connection (depth at least 1), a whole scope is a
no-op on the state: enter only increments the depth, exit only decrements it,
and the backend observes nothing. -/
theorem runTree_ambient : ∀ (t : ScopeTree) (s : ConnState),
    s.conn = true → 1 ≤ s.depth → runTree t s = s
  | .node children exc, s, hc, hd => by
    have h1 : enterScope s = { s with depth := s.depth + 1 } := by
      simp [enterScope, hc]
    have h2 : runForest children { s with depth := s.depth + 1 } =
        { s with depth := s.depth + 1 } :=
      runForest_ambient children _ hc (by simp)
    have h3 : ¬ (s.depth + 1 = 0) := by omega
    have h4 : ¬ (s.depth = 0) := by omega
    calc runTree (.node children exc) s
        = exitScope exc (runForest children (enterScope s)) := rfl
      _ = exitScope exc { s with depth := s.depth + 1 } := by rw [h1, h2]
      _ = s := by simp [exitScope, h3, h4]

/-- Sibling scopes inside an ambient connection are a no-op on the state. -/
theorem runForest_ambient : ∀ (f : ScopeForest) (s : ConnState),
    s.conn = true → 1 ≤ s.depth → runForest f s = s
  | .fnil, _, _, _ => rfl
  | .fcons t rest, s, hc, hd => by
    calc runForest (.fcons t rest) s = runForest rest (runTree t s) := rfl
      _ = runForest rest s := by rw [runTree_ambient t s hc hd]
      _ = s := runForest_ambient rest s hc hd

end

/-- C2: for every nesting of transaction scopes run on a fresh call context,
the inner scopes reuse the ambient connection (enter only increments the depth
counter), and the backend observes exactly the trace connect, `BEGIN
TRANSACTION`, then one single commit (outermost exit without exception) or one
single rollback (outermost exit with exception), followed by one close —
regardless of the nesting depth or of which inner scopes saw exceptions. -/
theorem connection_scope_commits_or_rolls_back_once (ts : ScopeForest) (b : Bool) :
    runTree (.node ts b) ⟨0, false, []⟩ =
      ⟨0, false, [.connect, .beginTx, if b then .rollback else .commit, .close]⟩ ∧
    (∀ s : ConnState, s.conn = true → enterScope s = { s with depth := s.depth + 1 }) := by
  constructor
  · have h0 : enterScope ⟨0, false, []⟩ = ⟨1, true, [.connect, .beginTx]⟩ := by
      simp [enterScope]
    have h1 : runForest ts ⟨1, true, [.connect, .beginTx]⟩ = ⟨1, true, [.connect, .beginTx]⟩ :=
      runForest_ambient ts _ rfl (Nat.le_refl 1)
    calc runTree (.node ts b) ⟨0, false, []⟩
        = exitScope b (runForest ts (enterScope ⟨0, false, []⟩)) := rfl
      _ = exitScope b ⟨1, true, [.connect, .beginTx]⟩ := by rw [h0, h1]
      _ = ⟨0, false, [.connect, .beginTx, if b then .rollback else .commit, .close]⟩ := by
          simp [exitScope]
  · intro s hs
    simp [enterScope, hs]

/-- C2 witness: one nested inner scope that raises, outer scope succeeds —
exactly one commit then close; and entering with an ambient connection only
increments the depth. -/
theorem connection_scope_commits_or_rolls_back_once_witness :
    runTree (.node (.fcons (.node .fnil true) .fnil) false) ⟨0, false, []⟩ =
      ⟨0, false, [.connect, .beginTx, .commit, .close]⟩ ∧
    enterScope ⟨3, true, []⟩ = ⟨4, true, []⟩ := by
  constructor
  · exact (connection_scope_commits_or_rolls_back_once (.fcons (.node .fnil true) .fnil) false).1
  · exact (connection_scope_commits_or_rolls_back_once .fnil false).2 ⟨3, true, []⟩ rfl

theorem foldl_append_has_where (frags : List (String × ParamsArg)) :
    ∀ qb : QueryBuilder,
      (frags.foldl (fun qb fp => qb.append fp.1 fp.2) qb)._has_where =
        (qb._has_where || frags.any (fun fp => strContains fp.1 "WHERE")) := by
  induction frags with
  | nil => intro qb; simp
  | cons f rest ih =>
    intro qb
    rw [List.foldl_cons, ih]
    simp [QueryBuilder.append, List.any_cons, Bool.or_assoc]

/-- The WHERE flag of a directly-built builder is exactly "some appended
string fragment contains the substring WHERE". -/
theorem buildFrom_has_where (frags : List (String × ParamsArg)) :
    (buildFrom frags)._has_where = frags.any (fun fp => strContains fp.1 "WHERE") := by
  simpa [buildFrom, QueryBuilder.empty] using foldl_append_has_where frags QueryBuilder.empty

@[simp] theorem exceptBind_ok {ε α β : Type} (x : α) (f : α → Except ε β) :
    (Except.ok x >>= f) = f x := rfl

@[simp] theorem exceptBind_error {ε α β : Type} (e : ε) (f : α → Except ε β) :
    ((Except.error e : Except ε α) >>= f) = .error e := rfl

theorem mapM_ok_of_map {α β γ : Type} (g : α → β) (f : β → Except PyErr γ) (k : α → γ)
    (h : ∀ a, f (g a) = .ok (k a)) : ∀ (l : List α), (l.map g).mapM f = .ok (l.map k) := by
  intro l
  induction l with
  | nil => rfl
  | cons a t ih =>
    simp only [List.map_cons, List.mapM_cons, h a, ih, exceptBind_ok]
    rfl

theorem mapM_error_shape {α γ : Type} (f : α → Except PyErr γ)
    (h : ∀ a e, f a = .error e → ∃ msg, e = .typeError msg) :
    ∀ (l : List α) (e : PyErr), l.mapM f = .error e → ∃ msg, e = .typeError msg := by
  intro l
  induction l with
  | nil =>
    intro e h2
    rw [List.mapM_nil] at h2
    exact absurd h2 (by simp [pure, Except.pure])
  | cons a t ih =>
    intro e h2
    rw [List.mapM_cons] at h2
    cases hfa : f a with
    | error e2 =>
      rw [hfa] at h2
      simp only [exceptBind_error] at h2
      injection h2 with h3
      exact h3 ▸ h a e2 hfa
    | ok y =>
      rw [hfa] at h2
      simp only [exceptBind_ok] at h2
      cases hft : t.mapM f with
      | error e2 =>
        rw [hft] at h2
        simp only [exceptBind_error] at h2
        injection h2 with h3
        exact h3 ▸ ih e2 hft
      | ok ys =>
        rw [hft] at h2
        simp only [exceptBind_ok] at h2
        exact absurd h2 (by simp [pure, Except.pure])

/-- C4 (amended): `appendIn` raises the missing-WHERE usage error whenever no
directly-appended string fragment contains the substring WHERE (fragments
merged from a sub-builder do not update the `_has_where` flag — see the
counterexample); it always raises a usage error on an empty value list (the
empty-IN error once a WHERE fragment was appended directly); otherwise it
appends `IN (?, ?, ...)` with the scalar values as parameters, or — for
tuple values — `IN ((?, ?), (?, ?), ...)` with the tuple parameters flattened
in row-major order. -/
theorem appendIn_requires_where_and_nonempty (frags : List (String × ParamsArg))
    (vals : List PyVal) :
    ((∀ fp ∈ frags, strContains fp.1 "WHERE" = false) →
      (buildFrom frags).appendIn vals =
        .error (.valueError "IN clause must be preceded by a WHERE clause")) ∧
    (∃ msg, (buildFrom frags).appendIn ([] : List PyVal) = .error (.valueError msg)) ∧
    ((∃ fp ∈ frags, strContains fp.1 "WHERE" = true) →
      (buildFrom frags).appendIn ([] : List PyVal) =
        .error (.valueError "IN clause cannot be empty")) ∧
    (∀ v0 rest, (∃ fp ∈ frags, strContains fp.1 "WHERE" = true) → vals = v0 :: rest →
      (∀ xs, v0 ≠ .vtup xs) → (∀ xs, v0 ≠ .vlist xs) →
      (buildFrom frags).appendIn vals =
        .ok ((buildFrom frags).append ("IN (" ++ placeholdersOf vals.length ++ ")")
          (.plist vals))) ∧
    (∀ tups : List (List PyVal), (∃ fp ∈ frags, strContains fp.1 "WHERE" = true) →
      tups ≠ [] → vals = tups.map (fun t => PyVal.vtup (PyList.ofList t)) →
      (buildFrom frags).appendIn vals =
        .ok ((buildFrom frags).append
          ("IN (" ++ String.intercalate ", "
            (tups.map (fun t => "(" ++ placeholdersOf t.length ++ ")")) ++ ")")
          (.plist tups.flatten))) := by
  have hfw := buildFrom_has_where frags
  refine ⟨?_, ?_, ?_, ?_, ?_⟩
  · intro h
    have hf : (buildFrom frags)._has_where = false := by
      rw [hfw, List.any_eq_false]
      intro fp hfp
      simp [h fp hfp]
    simp [QueryBuilder.appendIn, hf]
  · cases hcase : (buildFrom frags)._has_where with
    | false =>
      exact ⟨"IN clause must be preceded by a WHERE clause",
        by simp [QueryBuilder.appendIn, hcase]⟩
    | true =>
      exact ⟨"IN clause cannot be empty", by simp [QueryBuilder.appendIn, hcase]⟩
  · intro hex
    have hf : (buildFrom frags)._has_where = true := by
      rw [hfw, List.any_eq_true]
      obtain ⟨fp, h1, h2⟩ := hex
      exact ⟨fp, h1, h2⟩
    simp [QueryBuilder.appendIn, hf]
  · intro v0 rest hex hv hnt hnl
    have hf : (buildFrom frags)._has_where = true := by
      rw [hfw, List.any_eq_true]
      obtain ⟨fp, h1, h2⟩ := hex
      exact ⟨fp, h1, h2⟩
    subst hv
    cases v0 with
    | vtup xs => exact absurd rfl (hnt xs)
    | vlist xs => exact absurd rfl (hnl xs)
    | vnone => simp [QueryBuilder.appendIn, hf]
    | vint n => simp [QueryBuilder.appendIn, hf]
    | vstr s => simp [QueryBuilder.appendIn, hf]
    | vbool b => simp [QueryBuilder.appendIn, hf]
    | vlazy d r => simp [QueryBuilder.appendIn, hf]
    | vent m2 vs2 => simp [QueryBuilder.appendIn, hf]
    | vdict kvs => simp [QueryBuilder.appendIn, hf]
  · intro tups hex htne hv
    have hf : (buildFrom frags)._has_where = true := by
      rw [hfw, List.any_eq_true]
      obtain ⟨fp, h1, h2⟩ := hex
      exact ⟨fp, h1, h2⟩
    subst hv
    have h1 := mapM_ok_of_map (fun t => PyVal.vtup (PyList.ofList t)) lenOfValue
      List.length (fun a => by simp [lenOfValue]) tups
    have h2 := mapM_ok_of_map (fun t => PyVal.vtup (PyList.ofList t)) elemsOfValue
      (fun t => t) (fun a => by simp [elemsOfValue]) tups
    cases tups with
    | nil => exact absurd rfl htne
    | cons t0 ts =>
      simp only [List.map_cons] at h1 h2 ⊢
      simp only [List.mapM] at h1 h2
      simp [QueryBuilder.appendIn, hf, h1, h2, List.map_map, Function.comp_def]

/-- C4 witness: missing WHERE raises; empty list raises; scalar and tuple
value lists render as claimed. -/
theorem appendIn_requires_where_and_nonempty_witness :
    (buildFrom [("SELECT 1", .pnone)]).appendIn [PyVal.vint 1] =
      .error (.valueError "IN clause must be preceded by a WHERE clause") ∧
    (buildFrom [("WHERE x = ?", .pval (.vint 0))]).appendIn ([] : List PyVal) =
      .error (.valueError "IN clause cannot be empty") ∧
    (buildFrom [("WHERE x = ?", .pval (.vint 0))]).appendIn [PyVal.vint 1, PyVal.vint 2] =
      .ok ((buildFrom [("WHERE x = ?", .pval (.vint 0))]).append "IN (?, ?)"
        (.plist [PyVal.vint 1, PyVal.vint 2])) ∧
    (buildFrom [("WHERE (a, b)", .pnone)]).appendIn
        [PyVal.vtup (PyList.ofList [PyVal.vint 1, PyVal.vint 2]),
         PyVal.vtup (PyList.ofList [PyVal.vint 3, PyVal.vint 4])] =
      .ok ((buildFrom [("WHERE (a, b)", .pnone)]).append "IN ((?, ?), (?, ?))"
        (.plist [PyVal.vint 1, PyVal.vint 2, PyVal.vint 3, PyVal.vint 4])) := by
  refine ⟨?_, ?_, ?_, ?_⟩
  · exact (appendIn_requires_where_and_nonempty [("SELECT 1", .pnone)] [PyVal.vint 1]).1
      (by decide)
  · exact (appendIn_requires_where_and_nonempty [("WHERE x = ?", .pval (.vint 0))] []).2.2.1
      (by decide)
  · exact (appendIn_requires_where_and_nonempty [("WHERE x = ?", .pval (.vint 0))]
      [PyVal.vint 1, PyVal.vint 2]).2.2.2.1 (PyVal.vint 1) [PyVal.vint 2] (by decide) rfl
      (fun xs h => PyVal.noConfusion h) (fun xs h => PyVal.noConfusion h)
  · exact (appendIn_requires_where_and_nonempty [("WHERE (a, b)", .pnone)] _).2.2.2.2
      [[PyVal.vint 1, PyVal.vint 2], [PyVal.vint 3, PyVal.vint 4]] (by decide)
      (by simp) rfl

/-- C4 counterexample: a fragment containing a WHERE clause HAS been appended
(through the sub-builder path of `append`), the value list is non-empty, and
yet `appendIn` raises the missing-WHERE usage error, because `_append_self`
does not merge the `_has_where` flag. -/
theorem appendIn_after_subbuilder_where_raises :
    (∃ fragment ∈ mergedBuilder._query, strContains fragment "WHERE" = true) ∧
    mergedBuilder.appendIn [PyVal.vint 1, PyVal.vint 2] =
      .error (.valueError "IN clause must be preceded by a WHERE clause") := by
  exact ⟨⟨"WHERE x = 1", by decide, by decide⟩, by decide⟩

theorem lenOfValue_error_shape : ∀ (a : PyVal) (e : PyErr),
    lenOfValue a = .error e → ∃ msg, e = .typeError msg := by
  intro a e h
  cases a <;> simp [lenOfValue] at h <;> exact ⟨_, h.symm⟩

theorem elemsOfValue_error_shape : ∀ (a : PyVal) (e : PyErr),
    elemsOfValue a = .error e → ∃ msg, e = .typeError msg := by
  intro a e h
  cases a <;> simp [elemsOfValue] at h <;> exact ⟨_, h.symm⟩

theorem appendWhereOrAnd_sets_where (qb : QueryBuilder) (s : String) (p : ParamsArg) :
    (qb.appendWhereOrAnd s p)._has_where = true := by
  unfold QueryBuilder.appendWhereOrAnd
  split
  · next h => simp [QueryBuilder.append, h]
  · simp [QueryBuilder.append]

theorem appendIn_ne_missing_where (qb : QueryBuilder) (vals : List PyVal)
    (hw : qb._has_where = true) (hne : vals ≠ []) :
    qb.appendIn vals ≠ .error (.valueError "IN clause must be preceded by a WHERE clause") := by
  unfold QueryBuilder.appendIn
  rw [hw]
  simp only [Bool.true_eq_false, if_false]
  cases vals with
  | nil => exact absurd rfl hne
  | cons v0 rest =>
    cases v0 <;> simp only [] <;> try simp
    case vtup xs =>
      intro hcontra
      cases h1 : (PyVal.vtup xs :: rest).mapM lenOfValue with
      | error e =>
        simp only [List.mapM] at h1
        rw [h1] at hcontra
        simp at hcontra
        obtain ⟨msg, rfl⟩ := mapM_error_shape lenOfValue lenOfValue_error_shape _ e
          (by simp only [List.mapM]; exact h1)
        simp at hcontra
      | ok lens =>
        simp only [List.mapM] at h1
        rw [h1] at hcontra
        simp at hcontra
        cases h2 : (PyVal.vtup xs :: rest).mapM elemsOfValue with
        | error e =>
          simp only [List.mapM] at h2
          rw [h2] at hcontra
          simp at hcontra
          obtain ⟨msg, rfl⟩ := mapM_error_shape elemsOfValue elemsOfValue_error_shape _ e
            (by simp only [List.mapM]; exact h2)
          simp at hcontra
        | ok flat =>
          simp only [List.mapM] at h2
          rw [h2] at hcontra
          simp at hcontra
    case vlist xs =>
      intro hcontra
      cases h1 : (PyVal.vlist xs :: rest).mapM lenOfValue with
      | error e =>
        simp only [List.mapM] at h1
        rw [h1] at hcontra
        simp at hcontra
        obtain ⟨msg, rfl⟩ := mapM_error_shape lenOfValue lenOfValue_error_shape _ e
          (by simp only [List.mapM]; exact h1)
        simp at hcontra
      | ok lens =>
        simp only [List.mapM] at h1
        rw [h1] at hcontra
        simp at hcontra
        cases h2 : (PyVal.vlist xs :: rest).mapM elemsOfValue with
        | error e =>
          simp only [List.mapM] at h2
          rw [h2] at hcontra
          simp at hcontra
          obtain ⟨msg, rfl⟩ := mapM_error_shape elemsOfValue elemsOfValue_error_shape _ e
            (by simp only [List.mapM]; exact h2)
          simp at hcontra
        | ok flat =>
          simp only [List.mapM] at h2
          rw [h2] at hcontra
          simp at hcontra

/-- C10 (amended): `appendWhereOrAnd` prepends `WHERE ` when no
directly-appended string fragment contained the substring WHERE, and prepends
`AND ` when one did (fragments merged from a sub-builder are not inspected —
see the counterexample); afterwards the builder has its WHERE flag set, so a
subsequent `appendIn` with a non-empty value list never raises the
missing-WHERE usage error. -/
theorem appendWhereOrAnd_where_or_and (frags : List (String × ParamsArg)) (s : String)
    (p : ParamsArg) :
    ((∀ fp ∈ frags, strContains fp.1 "WHERE" = false) →
      (buildFrom frags).appendWhereOrAnd s p = (buildFrom frags).append ("WHERE " ++ s) p) ∧
    ((∃ fp ∈ frags, strContains fp.1 "WHERE" = true) →
      (buildFrom frags).appendWhereOrAnd s p = (buildFrom frags).append ("AND " ++ s) p) ∧
    (∀ vals : List PyVal, vals ≠ [] →
      ((buildFrom frags).appendWhereOrAnd s p).appendIn vals ≠
        .error (.valueError "IN clause must be preceded by a WHERE clause")) := by
  have hfw := buildFrom_has_where frags
  refine ⟨?_, ?_, ?_⟩
  · intro h
    have hf : (buildFrom frags)._has_where = false := by
      rw [hfw, List.any_eq_false]
      intro fp hfp
      simp [h fp hfp]
    have hc : strContains ("WHERE " ++ s) "WHERE" = true := rfl
    simp [QueryBuilder.appendWhereOrAnd, hf, QueryBuilder.append, hc]
  · intro hex
    have hf : (buildFrom frags)._has_where = true := by
      rw [hfw, List.any_eq_true]
      obtain ⟨fp, h1, h2⟩ := hex
      exact ⟨fp, h1, h2⟩
    simp [QueryBuilder.appendWhereOrAnd, hf, QueryBuilder.append]
  · intro vals hne
    exact appendIn_ne_missing_where _ vals (appendWhereOrAnd_sets_where _ s p) hne

/-- C10 witness: WHERE is prepended on a WHERE-free builder, AND on a builder
with a direct WHERE fragment, and `appendIn` succeeds afterwards. -/
theorem appendWhereOrAnd_where_or_and_witness :
    (buildFrom [("SELECT a FROM t", .pnone)]).appendWhereOrAnd "x = ?" (.pval (.vint 1)) =
      (buildFrom [("SELECT a FROM t", .pnone)]).append ("WHERE " ++ "x = ?") (.pval (.vint 1)) ∧
    (buildFrom [("WHERE a = ?", .pval (.vint 0))]).appendWhereOrAnd "x = ?" (.pval (.vint 1)) =
      (buildFrom [("WHERE a = ?", .pval (.vint 0))]).append ("AND " ++ "x = ?")
        (.pval (.vint 1)) ∧
    ((buildFrom [("SELECT a FROM t", .pnone)]).appendWhereOrAnd "x = ?"
        (.pval (.vint 1))).appendIn [PyVal.vint 7] ≠
      .error (.valueError "IN clause must be preceded by a WHERE clause") := by
  refine ⟨?_, ?_, ?_⟩
  · exact (appendWhereOrAnd_where_or_and [("SELECT a FROM t", .pnone)] "x = ?"
      (.pval (.vint 1))).1 (by decide)
  · exact (appendWhereOrAnd_where_or_and [("WHERE a = ?", .pval (.vint 0))] "x = ?"
      (.pval (.vint 1))).2.1 (by decide)
  · exact (appendWhereOrAnd_where_or_and [("SELECT a FROM t", .pnone)] "x = ?"
      (.pval (.vint 1))).2.2 [PyVal.vint 7] (by decide)

/-- C10 counterexample: a previously appended fragment contains the substring
WHERE (it arrived through the sub-builder path), yet `appendWhereOrAnd`
prepends `WHERE ` — not `AND ` — because `_append_self` does not merge the
`_has_where` flag. -/
theorem appendWhereOrAnd_after_subbuilder_where_prepends_where :
    (∃ fragment ∈ mergedBuilder._query, strContains fragment "WHERE" = true) ∧
    (mergedBuilder.appendWhereOrAnd "y = 2" .pnone)._query = ["WHERE x = 1", "WHERE y = 2"] := by
  exact ⟨⟨"WHERE x = 1", by decide, by decide⟩, by decide⟩

/-- C7: `get_one(key, nullable, fetch_type)` normalises a bare scalar key to a
one-element key sequence before building the primary-key query (a list/tuple
key is used as is), issues exactly that query, and on an empty result raises
the not-found `ValueError` when `nullable` is false, or returns the explicit
no-result marker `None` when `nullable` is true. -/
theorem get_one_normalizes_and_not_found (w : World) (fuel selfId : Nat) (key : PyVal)
    (ft : FetchType)
    (hempty : w.run selfId
      (generate_query_with_pk (w.table selfId).schema (normalizeKey key)) = []) :
    getOne w (fuel+2) selfId key false ft =
      ([(selfId, generate_query_with_pk (w.table selfId).schema (normalizeKey key))],
        .error (.valueError "No data found for key")) ∧
    getOne w (fuel+2) selfId key true ft =
      ([(selfId, generate_query_with_pk (w.table selfId).schema (normalizeKey key))],
        .ok none) ∧
    (∀ v : PyVal, (∀ l, v ≠ PyVal.vtup l) → (∀ l, v ≠ PyVal.vlist l) →
      normalizeKey v = [v]) := by
  have h1 : getOneOrNoneWithQuery w (fuel+1) selfId
      (generate_query_with_pk (w.table selfId).schema (normalizeKey key)) ft =
      ([(selfId, generate_query_with_pk (w.table selfId).schema (normalizeKey key))],
        .ok none) := by
    simp [getOneOrNoneWithQuery, hempty]
  refine ⟨?_, ?_, ?_⟩
  · simp [getOne, h1]
  · simp [getOne, h1]
  · intro v hnt hnl
    cases v with
    | vtup l => exact absurd rfl (hnt l)
    | vlist l => exact absurd rfl (hnl l)
    | vnone => rfl
    | vint n => rfl
    | vstr s => rfl
    | vbool b => rfl
    | vlazy d r => rfl
    | vent m2 vs2 => rfl
    | vdict kvs => rfl

/-- C7 witness: on a world whose SELECTs return no rows, `get_one` with a bare
scalar key 7 queries by the normalised one-element key and raises (or returns
the no-result marker when nullable). -/
theorem get_one_normalizes_and_not_found_witness :
    getOne emptyWorld 5 3 (.vint 7) false .EAGER =
      ([(3, generate_query_with_pk ordSchema [PyVal.vint 7])],
        .error (.valueError "No data found for key")) ∧
    getOne emptyWorld 5 3 (.vint 7) true .EAGER =
      ([(3, generate_query_with_pk ordSchema [PyVal.vint 7])], .ok none) ∧
    normalizeKey (.vint 7) = [PyVal.vint 7] := by
  have h := get_one_normalizes_and_not_found emptyWorld 3 3 (.vint 7) .EAGER rfl
  exact ⟨h.1, h.2.1, h.2.2 (.vint 7) (fun l hl => PyVal.noConfusion hl)
    (fun l hl => PyVal.noConfusion hl)⟩

/-- C1: on the spec's example result set `[{fk: 1}, {fk: 2}, {fk: null}]` the
EAGER resolver does collect the distinct foreign-key tuples, exclude the
null-component tuple, and issue exactly one batched query against the
referenced table filtered by the referenced primary key IN {(1), (2)} — but it
then raises `AttributeError` instead of returning resolved entities: the
recursive EAGER fetch of the referenced rows (and the outer parse itself)
reads the non-existent `meta().one_to_many_fields` (line 241), so the claimed
substitution of resolved target entities never completes.  Moreover, on a
result set whose only foreign-key tuple contains null, no batched query is
issued at all (the claim says exactly one). -/
theorem eager_fk_resolution_example_crashes :
    parseDbResult exWorld 9 1 exRows .EAGER =
      ([(0, exBatchQuery)], .error (.attributeError "one_to_many_fields")) ∧
    exBatchQuery._query = ["SELECT * FROM customer ", "WHERE (id)", "IN ((?), (?))"] ∧
    exBatchQuery._params = [.vint 1, .vint 2] ∧
    exWorld.run 0 exBatchQuery = custRows ∧
    parseDbResult exWorld 9 1 [[("id", .vint 12), ("fk", .vnone)]] .EAGER =
      ([], .error (.attributeError "one_to_many_fields")) := by
  refine ⟨by decide, rfl, rfl, rfl, by decide⟩

/-- C6: on an entity with exactly one changed non-key field, the diff
(`_get_different_columns`) is exactly that field's database column and the
built UPDATE names exactly that column in its SET clause — but the statement
is never executed: `conn` is the raw sqlite3 connection returned by
`Connection.__enter__`, and `conn.execute(main_query)` (line 128) passes the
`QueryBuilder` object (without its parameters) where the driver requires a SQL
string, raising `TypeError`, after which the scope rolls back.  On an entity
identical to its persisted state, zero UPDATE statements are issued (the
calls list is empty) and the update then raises `AttributeError` on the
missing `meta().one_to_many_fields` (line 130). -/
theorem update_one_changed_column_typeerror :
    getDifferentColumns 5 userMeta userChanged.vals userSame.vals = .ok ["name"] ∧
    updateM userWorld 9 5 userChanged =
      ([(5, userSelectQuery)], [RawCall.execBuilder userMainQuery],
        .error (.typeError "execute argument 1 must be str, not QueryBuilder")) ∧
    userMainQuery._query = ["UPDATE users", "SET name = ?", "WHERE id = ?"] ∧
    userMainQuery._params = [.vstr "new", .vint 1] ∧
    updateM userWorld 9 5 userSame =
      ([(5, userSelectQuery)], [], .error (.attributeError "one_to_many_fields")) := by
  refine ⟨by decide, by decide, rfl, rfl, by decide⟩

theorem exceptIsOk_exists {ε α : Type} (e : Except ε α) (h : e.isOk = true) :
    ∃ a, e = .ok a := by
  cases e with
  | error e2 => simp [Except.isOk, Except.toBool] at h
  | ok a => exact ⟨a, rfl⟩

theorem lookup_some_of_mem_keys {α : Type} (l : List (String × α)) (a : String)
    (h : a ∈ l.map (fun p => p.1)) : ∃ b, lookupStr l a = some b := by
  induction l with
  | nil => simp at h
  | cons p t ih =>
    by_cases hpa : p.1 = a
    · exact ⟨p.2, by simp [lookupStr, hpa]⟩
    · have h2 : a ∈ t.map (fun p => p.1) := by
        simp at h
        rcases h with h | h
        · exact absurd h.symm hpa
        · simpa using h
      obtain ⟨b, hb⟩ := ih h2
      exact ⟨b, by simp [lookupStr, hpa, hb]⟩

theorem lookup_none_of_not_mem_keys {α : Type} (l : List (String × α)) (a : String)
    (h : a ∉ l.map (fun p => p.1)) : lookupStr l a = none := by
  induction l with
  | nil => rfl
  | cons p t ih =>
    simp at h
    simp [lookupStr, h.1, ih (by simpa using h.2)]
    intro hc
    exact absurd hc.symm h.1

theorem getDbValue_of_lazy (fuel : Nat) (m : MetaInformation) (vals : List (String × PyVal))
    (attr : String) (spec : FieldSpec) (dbv : PyVal) (r : Nat)
    (hspec : lookupStr m.fields attr = some spec)
    (hv : lookupStr vals attr = some (.vlazy dbv r)) :
    getDbValue (fuel+1) m vals attr = .ok [dbv] := by
  simp [getDbValue, hspec, hv]

theorem getDbValue_of_vent (fuel : Nat) (m : MetaInformation) (vals : List (String × PyVal))
    (attr : String) (spec : FieldSpec) (m2 : MetaInformation) (vs2 : PyKVs)
    (hspec : lookupStr m.fields attr = some spec)
    (hv : lookupStr vals attr = some (.vent m2 vs2)) :
    getDbValue (fuel+1) m vals attr = entityPk fuel m2 vs2.toList := by
  simp [getDbValue, hspec, hv, entityPk]

theorem eqFieldsLoop_iff (fuel : Nat) (m : MetaInformation)
    (vals1 vals2 : List (String × PyVal)) :
    ∀ (flds : List (String × FieldSpec)),
    (∀ p ∈ flds, (getDbValue fuel m vals1 p.1).isOk = true) →
    (∀ p ∈ flds, (getDbValue fuel m vals2 p.1).isOk = true) →
    (eqFieldsLoop fuel m vals1 vals2 flds = .ok true ↔
      ∀ a ∈ flds.map (fun p => p.1),
        getDbValue fuel m vals1 a = getDbValue fuel m vals2 a) := by
  intro flds
  induction flds with
  | nil => intro _ _; simp [eqFieldsLoop]
  | cons p rest ih =>
    intro hs1 hs2
    obtain ⟨v1, hv1⟩ := exceptIsOk_exists _ (hs1 p (by simp))
    obtain ⟨v2, hv2⟩ := exceptIsOk_exists _ (hs2 p (by simp))
    have ih2 := ih (fun q hq => hs1 q (by simp [hq])) (fun q hq => hs2 q (by simp [hq]))
    by_cases hv : v1 = v2
    · subst hv
      constructor
      · intro hloop a ha
        simp only [List.map_cons, List.mem_cons] at ha
        rcases ha with ha | ha
        · subst ha; rw [hv1, hv2]
        · have : eqFieldsLoop fuel m vals1 vals2 rest = .ok true := by
            rw [eqFieldsLoop] at hloop
            rw [hv1, hv2] at hloop
            simpa using hloop
          exact (ih2.mp this) a ha
      · intro hall
        rw [eqFieldsLoop, hv1, hv2]
        simp only [exceptBind_ok, if_pos rfl]
        exact ih2.mpr (fun a ha => hall a (by simp [ha]))
    · constructor
      · intro hloop
        rw [eqFieldsLoop, hv1, hv2] at hloop
        simp [hv] at hloop
      · intro hall
        have := hall p.1 (by simp)
        rw [hv1, hv2] at this
        injection this with h3
        exact absurd h3 hv

theorem eqE_iff (fuel : Nat) (m : MetaInformation) (vals1 vals2 : List (String × PyVal))
    (hs1 : succeedsAllB fuel m vals1 = true) (hs2 : succeedsAllB fuel m vals2 = true) :
    eqE fuel ⟨m, vals1⟩ ⟨m, vals2⟩ = .ok true ↔
      (entityPk fuel m vals1 = entityPk fuel m vals2 ∧
       ∀ a ∈ m.fields.map (fun p => p.1),
         getDbValue fuel m vals1 a = getDbValue fuel m vals2 a) := by
  simp only [succeedsAllB, Bool.and_eq_true, List.all_eq_true] at hs1 hs2
  obtain ⟨p1, hp1⟩ := exceptIsOk_exists _ hs1.1
  obtain ⟨p2, hp2⟩ := exceptIsOk_exists _ hs2.1
  have hloop := eqFieldsLoop_iff fuel m vals1 vals2 m.fields
    (fun q hq => by simpa using hs1.2 q hq) (fun q hq => by simpa using hs2.2 q hq)
  by_cases hp : p1 = p2
  · subst hp
    rw [eqE]
    simp [hp1, hp2, hloop]
  · rw [eqE]
    simp [hp1, hp2, hp]

/-- C5: for two entity instances of the same class (on which primary key and
all field accesses evaluate), equality holds if and only if their primary keys
are equal and every declared field agrees under `get_db_value`; and in
particular an instance holding an unresolved Lazy Reference for a foreign-key
field compares equal to one holding the fully resolved target entity whenever
the lazy raw value equals the resolved entity's flattened primary key (and the
other fields agree). -/
theorem entity_eq_iff_pk_and_fields
    (fuel : Nat) (m : MetaInformation) (vals1 vals2 : List (String × PyVal))
    (hs1 : succeedsAllB fuel m vals1 = true) (hs2 : succeedsAllB fuel m vals2 = true) :
    (eqE fuel ⟨m, vals1⟩ ⟨m, vals2⟩ = .ok true ↔
      (entityPk fuel m vals1 = entityPk fuel m vals2 ∧
       ∀ a ∈ m.fields.map (fun p => p.1),
         getDbValue fuel m vals1 a = getDbValue fuel m vals2 a)) ∧
    (∀ (fuel2 : Nat) (m0 : MetaInformation) (w1 w2 : List (String × PyVal)) (attr : String)
        (dbv : PyVal) (r : Nat) (m2 : MetaInformation) (vs2 : PyKVs),
      succeedsAllB (fuel2+1) m0 w1 = true → succeedsAllB (fuel2+1) m0 w2 = true →
      lookupStr w1 attr = some (PyVal.vlazy dbv r) →
      lookupStr w2 attr = some (PyVal.vent m2 vs2) →
      entityPk fuel2 m2 vs2.toList = .ok [dbv] →
      (∀ a ∈ m0.fields.map (fun p => p.1), a ≠ attr →
        getDbValue (fuel2+1) m0 w1 a = getDbValue (fuel2+1) m0 w2 a) →
      eqE (fuel2+1) ⟨m0, w1⟩ ⟨m0, w2⟩ = .ok true) := by
  constructor
  · exact eqE_iff fuel m vals1 vals2 hs1 hs2
  · intro fuel2 m0 w1 w2 attr dbv r m2 vs2 hq1 hq2 hlz hent hpk hother
    have hAgree : ∀ a ∈ m0.fields.map (fun p => p.1),
        getDbValue (fuel2+1) m0 w1 a = getDbValue (fuel2+1) m0 w2 a := by
      intro a ha
      by_cases hattr : a = attr
      · subst hattr
        obtain ⟨spec, hspec⟩ := lookup_some_of_mem_keys m0.fields a ha
        rw [getDbValue_of_lazy fuel2 m0 w1 a spec dbv r hspec hlz,
            getDbValue_of_vent fuel2 m0 w2 a spec m2 vs2 hspec hent, hpk]
      · exact hother a ha hattr
    have hAll : ∀ a, getDbValue (fuel2+1) m0 w1 a = getDbValue (fuel2+1) m0 w2 a := by
      intro a
      by_cases hmem : a ∈ m0.fields.map (fun p => p.1)
      · exact hAgree a hmem
      · have hnone := lookup_none_of_not_mem_keys m0.fields a hmem
        simp [getDbValue, hnone]
    have hpkeq : entityPk (fuel2+1) m0 w1 = entityPk (fuel2+1) m0 w2 := by
      unfold entityPk
      have : (fun col : DBColumn => getDbValue (fuel2+1) m0 w1 col.field_name) =
          (fun col : DBColumn => getDbValue (fuel2+1) m0 w2 col.field_name) :=
        funext (fun col => hAll col.field_name)
      rw [this]
    exact (eqE_iff (fuel2+1) m0 w1 w2 hq1 hq2).mpr ⟨hpkeq, hAgree⟩

/-- C5 witness: the order holding `LazyRef(5)` compares equal to the order
holding the resolved customer whose flattened primary key is `(5,)`. -/
theorem entity_eq_iff_pk_and_fields_witness :
    eqE 3 lazyOrder resolvedOrder = .ok true :=
  (entity_eq_iff_pk_and_fields 1 ordMeta lazyOrder.vals lazyOrder.vals (by decide)
      (by decide)).2
    2 ordMeta lazyOrder.vals resolvedOrder.vals "fk" (.vint 5) 0 custMeta
    (.kcons "id" (.vint 5) .knil) (by decide) (by decide) (by decide) (by decide) (by decide)
    (by decide)

/-! ## Round trip (C9): `from_db_dict` after `as_dict_with_db_names` -/

theorem mapM_ok_of_mem {α β : Type} (l : List α) (F : α → Except PyErr β) (G : α → β)
    (h : ∀ p ∈ l, F p = .ok (G p)) : l.mapM F = .ok (l.map G) := by
  induction l with
  | nil => rfl
  | cons a t ih =>
    simp only [List.mapM_cons, h a (by simp), List.map_cons, exceptBind_ok,
      ih (fun p hp => h p (by simp [hp]))]
    rfl

theorem lookupStr_append_of_some {α : Type} (l1 l2 : List (String × α)) (k : String)
    (v : α) (h : lookupStr l1 k = some v) : lookupStr (l1 ++ l2) k = some v := by
  induction l1 with
  | nil => simp [lookupStr] at h
  | cons p t ih =>
    by_cases hp : p.1 = k
    · simp [lookupStr, hp] at h ⊢
      exact h
    · simp [lookupStr, hp] at h ⊢
      exact ih h

theorem lookupStr_append_of_none {α : Type} (l1 l2 : List (String × α)) (k : String)
    (h : lookupStr l1 k = none) : lookupStr (l1 ++ l2) k = lookupStr l2 k := by
  induction l1 with
  | nil => rfl
  | cons p t ih =>
    by_cases hp : p.1 = k
    · simp [lookupStr, hp] at h
    · simp [lookupStr, hp] at h ⊢
      exact ih h

theorem lookupStr_map_keyed {α : Type} (flds : List (String × α)) (g : String → PyVal)
    (a : String) (h : a ∈ flds.map (fun p => p.1)) :
    lookupStr (flds.map (fun p => (p.1, g p.1))) a = some (g a) := by
  induction flds with
  | nil => simp at h
  | cons p t ih =>
    by_cases hp : p.1 = a
    · subst hp
      simp [lookupStr]
    · have h2 : a ∈ t.map (fun p => p.1) := by
        simp at h
        rcases h with h | h
        · exact absurd h.symm hp
        · simpa using h
      simp [lookupStr, hp]
      exact ih h2

theorem lookup_asDict_head (flds : List (String × FieldSpec)) (g : String → PyVal) :
    ∀ (a : String) (spec : FieldSpec) (c : DBColumn) (cs : List DBColumn),
    (flds.flatMap (fun p => p.2.cols.map (fun c2 => c2.db_field_name))).Nodup →
    (a, spec) ∈ flds → spec.cols = c :: cs →
    lookupStr (flds.flatMap (fun p => p.2.cols.map (fun c2 => (c2.db_field_name, g p.1))))
      c.db_field_name = some (g a) := by
  induction flds with
  | nil =>
    intro a spec c cs _ h _
    simp at h
  | cons p t ih =>
    intro a spec c cs hnodup hmem hcols
    rw [List.flatMap_cons] at hnodup ⊢
    rw [List.nodup_append] at hnodup
    obtain ⟨hn1, hn2, hdisj⟩ := hnodup
    rcases List.mem_cons.mp hmem with heq | hmemt
    · subst heq
      simp only at hcols ⊢
      rw [hcols]
      simp only [List.map_cons]
      exact lookupStr_append_of_some _ _ _ _ (by simp [lookupStr])
    · have hkey : c.db_field_name ∈ t.flatMap (fun p => p.2.cols.map (fun c2 => c2.db_field_name)) := by
        rw [List.mem_flatMap]
        exact ⟨(a, spec), hmemt, by simp [hcols]⟩
      have hnot : c.db_field_name ∉ p.2.cols.map (fun c2 => c2.db_field_name) :=
        fun hc => hdisj hc hkey
      have hnone : lookupStr (p.2.cols.map (fun c2 => (c2.db_field_name, g p.1)))
          c.db_field_name = none := by
        apply lookup_none_of_not_mem_keys
        simpa [List.map_map, Function.comp_def] using hnot
      rw [lookupStr_append_of_none _ _ _ hnone]
      exact ih a spec c cs hn2 hmemt hcols

theorem fromDbDictField_clean (w : World) (e : Entity)
    (hnodup : (e.meta.fields.flatMap (fun p => p.2.cols.map (fun c => c.db_field_name))).Nodup)
    (p : String × FieldSpec) (hp : p ∈ e.meta.fields)
    (hshape : cleanFieldShape w p.2 ((lookupStr e.vals p.1).getD PyVal.vnone) = true) :
    fromDbDictField w (asDictWithDbNames e) p =
      .ok (p.1, (lookupStr e.vals p.1).getD PyVal.vnone) := by
  have hmain : ∀ (c : DBColumn) (cs : List DBColumn), p.2.cols = c :: cs →
      (match p.2 with
        | FieldSpec.compound [] => Except.error (PyErr.indexError "list index out of range")
        | FieldSpec.compound (c :: _) => Except.ok c
        | FieldSpec.single c => Except.ok c) = Except.ok c → True := fun _ _ _ _ => trivial
  cases hspec : p.2 with
  | single c =>
    have hcols : p.2.cols = [c] := by rw [hspec]; rfl
    have hlk : lookupStr (asDictWithDbNames e) c.db_field_name =
        some ((lookupStr e.vals p.1).getD PyVal.vnone) :=
      lookup_asDict_head e.meta.fields (fun a => (lookupStr e.vals a).getD PyVal.vnone)
        p.1 p.2 c [] hnodup (by simpa using hp) hcols
    rw [hspec] at hshape
    simp only [cleanFieldShape, FieldSpec.cols] at hshape
    cases href : c.reference with
    | none => simp [fromDbDictField, hspec, hlk, href]
    | some r =>
      rw [href] at hshape
      cases hv : (lookupStr e.vals p.1).getD PyVal.vnone with
      | vnone => simp [fromDbDictField, hspec, hlk, href, hv]
      | vent m2 vs2 =>
        rw [hv] at hshape
        have hm2 : m2 = (w.table r).meta := by
          simpa using hshape
        simp [fromDbDictField, hspec, hlk, href, hv, isTypeOrList, hm2]
      | vlist xs =>
        rw [hv] at hshape
        have : isTypeOrList (w.table r).meta (PyVal.vlist xs) = true := by
          simpa [isTypeOrList] using hshape
        simp [fromDbDictField, hspec, hlk, href, hv, this]
      | vint n => rw [hv] at hshape; simp at hshape
      | vstr s => rw [hv] at hshape; simp at hshape
      | vbool b => rw [hv] at hshape; simp at hshape
      | vtup xs => rw [hv] at hshape; simp at hshape
      | vlazy d r2 => rw [hv] at hshape; simp at hshape
      | vdict kvs => rw [hv] at hshape; simp at hshape
  | compound cs0 =>
    cases cs0 with
    | nil =>
      rw [hspec] at hshape
      simp [cleanFieldShape, FieldSpec.cols] at hshape
    | cons c cs =>
      have hcols : p.2.cols = c :: cs := by rw [hspec]; rfl
      have hlk : lookupStr (asDictWithDbNames e) c.db_field_name =
          some ((lookupStr e.vals p.1).getD PyVal.vnone) :=
        lookup_asDict_head e.meta.fields (fun a => (lookupStr e.vals a).getD PyVal.vnone)
          p.1 p.2 c cs hnodup (by simpa using hp) hcols
      rw [hspec] at hshape
      simp only [cleanFieldShape, FieldSpec.cols] at hshape
      cases href : c.reference with
      | none => simp [fromDbDictField, hspec, hlk, href]
      | some r =>
        rw [href] at hshape
        cases hv : (lookupStr e.vals p.1).getD PyVal.vnone with
        | vnone => simp [fromDbDictField, hspec, hlk, href, hv]
        | vent m2 vs2 =>
          rw [hv] at hshape
          have hm2 : m2 = (w.table r).meta := by
            simpa using hshape
          simp [fromDbDictField, hspec, hlk, href, hv, isTypeOrList, hm2]
        | vlist xs =>
          rw [hv] at hshape
          have : isTypeOrList (w.table r).meta (PyVal.vlist xs) = true := by
            simpa [isTypeOrList] using hshape
          simp [fromDbDictField, hspec, hlk, href, hv, this]
        | vint n => rw [hv] at hshape; simp at hshape
        | vstr s => rw [hv] at hshape; simp at hshape
        | vbool b => rw [hv] at hshape; simp at hshape
        | vtup xs => rw [hv] at hshape; simp at hshape
        | vlazy d r2 => rw [hv] at hshape; simp at hshape
        | vdict kvs => rw [hv] at hshape; simp at hshape

theorem initField_clean (w : World) (e : Entity) (fuel : Nat)
    (p : String × FieldSpec) (hp : p ∈ e.meta.fields)
    (hshape : cleanFieldShape w p.2 ((lookupStr e.vals p.1).getD PyVal.vnone) = true) :
    initField w (fuel+1)
      (e.meta.fields.map (fun q => (q.1, (lookupStr e.vals q.1).getD PyVal.vnone))) p =
      .ok (p.1, (lookupStr e.vals p.1).getD PyVal.vnone) := by
  have hmemk : p.1 ∈ e.meta.fields.map (fun q => q.1) := List.mem_map.mpr ⟨p, hp, rfl⟩
  have hlk : lookupStr
      (e.meta.fields.map (fun q => (q.1, (lookupStr e.vals q.1).getD PyVal.vnone))) p.1 =
      some ((lookupStr e.vals p.1).getD PyVal.vnone) :=
    lookupStr_map_keyed e.meta.fields (fun a => (lookupStr e.vals a).getD PyVal.vnone) p.1 hmemk
  cases hspec : p.2 with
  | single c =>
    rw [hspec] at hshape
    simp only [cleanFieldShape, FieldSpec.cols] at hshape
    cases href : c.reference with
    | none =>
      rw [href] at hshape
      cases hv : (lookupStr e.vals p.1).getD PyVal.vnone with
      | vnone => simp [initField, getFirstOrElement, hspec, hlk, hv, href]
      | vint n => simp [initField, getFirstOrElement, hspec, hlk, hv, href]
      | vstr s => simp [initField, getFirstOrElement, hspec, hlk, hv, href]
      | vbool b => simp [initField, getFirstOrElement, hspec, hlk, hv, href]
      | vtup xs => simp [initField, getFirstOrElement, hspec, hlk, hv, href]
      | vlist xs =>
        rw [hv] at hshape
        have helems : ∀ x ∈ xs.toList,
            (fun x => match x with
              | PyVal.vdict kvs => Except.error (PyErr.attributeError "dataclass")
              | x => Except.ok x) x = Except.ok (id x) := by
          intro x hx
          have hnd := (List.all_eq_true.mp (by simpa using hshape)) x hx
          cases x <;> simp at hnd ⊢
        have hmm := mapM_ok_of_mem xs.toList _ _ helems
        simp only [List.mapM] at hmm
        simp [initField, getFirstOrElement, hspec, hlk, hv, href, hmm, List.map_id,
          PyList.ofList_toList]
      | vlazy d r2 => rw [hv] at hshape; simp at hshape
      | vent m2 vs2 => rw [hv] at hshape; simp at hshape
      | vdict kvs => rw [hv] at hshape; simp at hshape
    | some r =>
      rw [href] at hshape
      cases hv : (lookupStr e.vals p.1).getD PyVal.vnone with
      | vnone => simp [initField, getFirstOrElement, hspec, hlk, hv, href]
      | vent m2 vs2 =>
        simp [initField, getFirstOrElement, hspec, hlk, hv, href, isBaseDataOrList]
      | vlist xs =>
        rw [hv] at hshape
        have hall := List.all_eq_true.mp (by simpa using hshape)
        have helems : ∀ x ∈ xs.toList,
            (fun x => match x with
              | PyVal.vdict kvs =>
                Except.map Entity.toVal (initE w fuel (w.table r).meta kvs.toList)
              | x => Except.ok x) x = Except.ok (id x) := by
          intro x hx
          have hnd := hall x hx
          cases x <;> simp at hnd ⊢
        have hmm := mapM_ok_of_mem xs.toList _ _ helems
        simp only [List.mapM] at hmm
        have hbd : isBaseDataOrList (PyVal.vlist xs) = true := by
          simp only [isBaseDataOrList, List.all_eq_true]
          intro x hx
          have hnd := hall x hx
          cases x <;> simp at hnd ⊢
        simp [initField, getFirstOrElement, hspec, hlk, hv, href, hmm, List.map_id,
          PyList.ofList_toList, hbd]
      | vint n => rw [hv] at hshape; simp at hshape
      | vstr s => rw [hv] at hshape; simp at hshape
      | vbool b => rw [hv] at hshape; simp at hshape
      | vtup xs => rw [hv] at hshape; simp at hshape
      | vlazy d r2 => rw [hv] at hshape; simp at hshape
      | vdict kvs => rw [hv] at hshape; simp at hshape
  | compound cs0 =>
    cases cs0 with
    | nil =>
      rw [hspec] at hshape
      simp [cleanFieldShape, FieldSpec.cols] at hshape
    | cons c cs =>
      rw [hspec] at hshape
      simp only [cleanFieldShape, FieldSpec.cols] at hshape
      cases href : c.reference with
      | none =>
        rw [href] at hshape
        cases hv : (lookupStr e.vals p.1).getD PyVal.vnone with
        | vnone => simp [initField, getFirstOrElement, hspec, hlk, hv, href]
        | vint n => simp [initField, getFirstOrElement, hspec, hlk, hv, href]
        | vstr s => simp [initField, getFirstOrElement, hspec, hlk, hv, href]
        | vbool b => simp [initField, getFirstOrElement, hspec, hlk, hv, href]
        | vtup xs => simp [initField, getFirstOrElement, hspec, hlk, hv, href]
        | vlist xs =>
          rw [hv] at hshape
          have helems : ∀ x ∈ xs.toList,
              (fun x => match x with
                | PyVal.vdict kvs => Except.error (PyErr.attributeError "dataclass")
                | x => Except.ok x) x = Except.ok (id x) := by
            intro x hx
            have hnd := (List.all_eq_true.mp (by simpa using hshape)) x hx
            cases x <;> simp at hnd ⊢
          have hmm := mapM_ok_of_mem xs.toList _ _ helems
          simp only [List.mapM] at hmm
          simp [initField, getFirstOrElement, hspec, hlk, hv, href, hmm, List.map_id,
            PyList.ofList_toList]
        | vlazy d r2 => rw [hv] at hshape; simp at hshape
        | vent m2 vs2 => rw [hv] at hshape; simp at hshape
        | vdict kvs => rw [hv] at hshape; simp at hshape
      | some r =>
        rw [href] at hshape
        cases hv : (lookupStr e.vals p.1).getD PyVal.vnone with
        | vnone => simp [initField, getFirstOrElement, hspec, hlk, hv, href]
        | vent m2 vs2 =>
          simp [initField, getFirstOrElement, hspec, hlk, hv, href, isBaseDataOrList]
        | vlist xs =>
          rw [hv] at hshape
          have hall := List.all_eq_true.mp (by simpa using hshape)
          have helems : ∀ x ∈ xs.toList,
              (fun x => match x with
                | PyVal.vdict kvs =>
                  Except.map Entity.toVal (initE w fuel (w.table r).meta kvs.toList)
                | x => Except.ok x) x = Except.ok (id x) := by
            intro x hx
            have hnd := hall x hx
            cases x <;> simp at hnd ⊢
          have hmm := mapM_ok_of_mem xs.toList _ _ helems
          simp only [List.mapM] at hmm
          have hbd : isBaseDataOrList (PyVal.vlist xs) = true := by
            simp only [isBaseDataOrList, List.all_eq_true]
            intro x hx
            have hnd := hall x hx
            cases x <;> simp at hnd ⊢
          simp [initField, getFirstOrElement, hspec, hlk, hv, href, hmm, List.map_id,
            PyList.ofList_toList, hbd]
        | vint n => rw [hv] at hshape; simp at hshape
        | vstr s => rw [hv] at hshape; simp at hshape
        | vbool b => rw [hv] at hshape; simp at hshape
        | vtup xs => rw [hv] at hshape; simp at hshape
        | vlazy d r2 => rw [hv] at hshape; simp at hshape
        | vdict kvs => rw [hv] at hshape; simp at hshape

/-- C9 counterexample: the round trip does not reconstruct an equal entity
when a stored value is an unresolved `LazyField`.  `as_dict_with_db_names`
emits the stored `LazyField` under the column name, and `from_db_dict`
(`BaseData.py` lines 76-79) wraps the incoming non-`None` value — even when it
already is a `LazyField` — in a second `LazyField`, so the reconstruction holds
`LazyField(LazyField(5))` where the original held `LazyField(5)`; `__eq__`
compares `get_db_value` results, which differ (`LazyField(5)` versus `5`), and
returns `False`. -/
theorem from_db_dict_double_wraps_lazy_field :
    asDictWithDbNames lazyOrder = [("id", .vint 1), ("fk", .vlazy (.vint 5) 0)] ∧
    fromDbDict exWorld 5 ordMeta (asDictWithDbNames lazyOrder) =
      .ok ⟨ordMeta, [("id", .vint 1), ("fk", .vlazy (.vlazy (.vint 5) 0) 0)]⟩ ∧
    (fromDbDict exWorld 5 ordMeta (asDictWithDbNames lazyOrder)).bind
      (fun e2 => eqE 4 lazyOrder e2) = .ok false :=
  ⟨by decide, by decide, by decide⟩

/-- C9 (amended): for a well-formed entity all of whose stored values are
resolved — distinct database column names, `__dict__` holding exactly the
declared fields, every reference field holding `None` or (a list of) instances
of the referenced class, every other field holding no dict and no `LazyField` —
`from_db_dict (as_dict_with_db_names e)` reconstructs `e` itself exactly, and
`e == e` evaluates to `True` whenever primary key and field accesses evaluate,
so the round trip yields an entity equal to the original. -/
theorem round_trip_reconstructs_clean_entity (w : World) (n fuel : Nat) (e : Entity)
    (hclean : cleanEntityB w e = true)
    (hsucc : succeedsAllB fuel e.meta e.vals = true) :
    fromDbDict w (n+2) e.meta (asDictWithDbNames e) = .ok e ∧
      eqE fuel e e = .ok true := by
  have hsplit := hclean
  simp only [cleanEntityB, Bool.and_eq_true, List.all_eq_true] at hsplit
  obtain ⟨⟨hnd, hvb⟩, hsh⟩ := hsplit
  have hnodup : (e.meta.fields.flatMap (fun p => p.2.cols.map
      (fun c => c.db_field_name))).Nodup := of_decide_eq_true hnd
  have hvals : e.vals =
      e.meta.fields.map (fun p => (p.1, (lookupStr e.vals p.1).getD PyVal.vnone)) :=
    eq_of_beq hvb
  have hstage1 : e.meta.fields.mapM (fromDbDictField w (asDictWithDbNames e)) =
      .ok (e.meta.fields.map (fun p => (p.1, (lookupStr e.vals p.1).getD PyVal.vnone))) :=
    mapM_ok_of_mem e.meta.fields _ _
      (fun p hp => fromDbDictField_clean w e hnodup p hp (hsh p hp))
  have hstage2 : e.meta.fields.mapM
      (initField w (n+1)
        (e.meta.fields.map (fun q => (q.1, (lookupStr e.vals q.1).getD PyVal.vnone)))) =
      .ok (e.meta.fields.map (fun p => (p.1, (lookupStr e.vals p.1).getD PyVal.vnone))) :=
    mapM_ok_of_mem e.meta.fields _ _
      (fun p hp => initField_clean w e n p hp (hsh p hp))
  constructor
  · show (do
      let new_dict ← e.meta.fields.mapM (fromDbDictField w (asDictWithDbNames e))
      initE w (n+2) e.meta new_dict) = .ok e
    rw [hstage1, exceptBind_ok]
    show (e.meta.fields.mapM (initField w (n+1)
      (e.meta.fields.map (fun p => (p.1, (lookupStr e.vals p.1).getD PyVal.vnone))))).map
        (fun vals => Entity.mk e.meta vals) = .ok e
    rw [hstage2]
    show Except.ok (Entity.mk e.meta
      (e.meta.fields.map (fun p => (p.1, (lookupStr e.vals p.1).getD PyVal.vnone)))) = .ok e
    rw [← hvals]
  · have := (eqE_iff fuel e.meta e.vals e.vals hsucc hsucc).mpr
      ⟨rfl, fun a _ => rfl⟩
    simpa using this

/-- C9 witness: the order entity holding a resolved customer reference is
reconstructed exactly by the round trip, and compares equal to itself. -/
theorem round_trip_reconstructs_clean_entity_witness :
    cleanEntityB exWorld resolvedOrder = true ∧
    succeedsAllB 3 resolvedOrder.meta resolvedOrder.vals = true ∧
    (fromDbDict exWorld 3 resolvedOrder.meta (asDictWithDbNames resolvedOrder) =
        .ok resolvedOrder ∧
      eqE 3 resolvedOrder resolvedOrder = .ok true) :=
  ⟨by decide, by decide,
    round_trip_reconstructs_clean_entity exWorld 1 3 resolvedOrder (by decide) (by decide)⟩
